import Mathlib

/-!
# Verification of the layman daemon core against its specification

A shallow embedding of the parts of the `layman` tiling-window-manager
daemon that the specification's testable claims are about:

* `FocusHistory` (src/layman/focus_history.py),
* the master/stack layout algorithm (src/layman/managers/master_stack.py),
* the orchestrator (`Layman` in src/layman/layman.py): window event
  handlers, `setWorkspaceLayout`, and the `layoutManagerReloader`
  failure-recovery guard.

Python data is modelled as follows: machine-level `int` is `Int`
(arbitrary precision, as in Python), Python `list` is `List Int` with
Python indexing/insertion semantics made explicit (`pyIndex`, `pyInsert`,
`pySliceFrom`), Python `set` is a duplicate-free `List Int`, and fallible
code (uncaught `IndexError` / `AssertionError` / raised `ConfigError`)
returns `Option` / `Except`.  Compositor IPC commands are recorded as the
exact strings the Python code formats, in issue order.
-/

set_option linter.dupNamespace false
set_option linter.unusedVariables false

namespace Layman

/-- Python `l[i]` on a list of ints: non-negative indices from the front,
negative indices from the back, `none` models an `IndexError`. -/
def pyIndex (l : List Int) (i : Int) : Option Int :=
  if 0 ≤ i then l.get? i.toNat
  else if 0 ≤ (l.length : Int) + i then l.get? ((l.length : Int) + i).toNat
  else none

/-- Python `l.insert(i, x)`: clamps the position into `[0, len(l)]`
(negative positions count from the back). -/
def pyInsert (l : List Int) (i : Int) (x : Int) : List Int :=
  let k : Nat := if 0 ≤ i then min i.toNat l.length
    else (max 0 ((l.length : Int) + i)).toNat
  l.take k ++ x :: l.drop k

/-- Python slice `l[i:]`. -/
def pySliceFrom (l : List Int) (i : Int) : List Int :=
  if 0 ≤ i then l.drop i.toNat
  else l.drop (max 0 ((l.length : Int) + i)).toNat

/-! ## FocusHistory (src/layman/focus_history.py)

The Python class keeps a `deque(maxlen=max_size)` of window ids, most
recent first, plus a navigation cursor.  `deque.appendleft` on a full
deque discards the rightmost entry; on a `maxlen=0` deque it keeps the
deque empty.  Both behaviours are reproduced by consing and trimming. -/

structure FocusHistory where
  maxSize : Nat
  history : List Int
  currentIndex : Nat
deriving Repr, DecidableEq

/-- `FocusHistory()` — the default constructor (`max_size = 20`). -/
def FocusHistory.init : FocusHistory := ⟨20, [], 0⟩

/-- `FocusHistory.push`: dedup against the front, move an existing entry
to the front, cons (`appendleft`, trimming to `maxSize` as a bounded
deque does), reset the cursor. -/
def FocusHistory.push (h : FocusHistory) (windowId : Int) : FocusHistory :=
  if h.history.head? = some windowId then h
  else
    let base := if windowId ∈ h.history then h.history.erase windowId else h.history
    let hist := windowId :: base
    { h with history := if h.maxSize < hist.length then hist.dropLast else hist,
             currentIndex := 0 }

/-- `FocusHistory.previous`: advance the cursor and return the entry
there, or `none` (cursor unmoved) when past the end. -/
def FocusHistory.previous (h : FocusHistory) : Option Int × FocusHistory :=
  let target := h.currentIndex + 1
  if h.history.length ≤ target then (none, h)
  else (h.history.get? target, { h with currentIndex := target })

/-- `FocusHistory.remove`: drop the entry if present and clamp the
cursor back into range. -/
def FocusHistory.remove (h : FocusHistory) (windowId : Int) : FocusHistory :=
  if windowId ∈ h.history then
    let hist := h.history.erase windowId
    let idx := if hist.length ≤ h.currentIndex then hist.length - 1 else h.currentIndex
    { h with history := hist, currentIndex := idx }
  else h

/-- `FocusHistory.reset_navigation`. -/
def FocusHistory.resetNavigation (h : FocusHistory) : FocusHistory :=
  { h with currentIndex := 0 }

/-- `FocusHistory.clear`. -/
def FocusHistory.clear (h : FocusHistory) : FocusHistory :=
  { h with history := [], currentIndex := 0 }

/-- The public mutating operations of `FocusHistory`. -/
inductive FHOp
  | push (windowId : Int)
  | previous
  | remove (windowId : Int)
  | resetNavigation
  | clear
deriving Repr, DecidableEq

/-- Apply one operation (the value returned by `previous` is dropped,
only the state evolution matters here). -/
def FocusHistory.applyOp (h : FocusHistory) : FHOp → FocusHistory
  | .push windowId => h.push windowId
  | .previous => (h.previous).2
  | .remove windowId => h.remove windowId
  | .resetNavigation => h.resetNavigation
  | .clear => h.clear

/-- The invariant of the focus history: no duplicate window ids, at most
`maxSize` entries. -/
def FocusHistory.Inv (h : FocusHistory) : Prop :=
  h.history.Nodup ∧ h.history.length ≤ h.maxSize

instance (h : FocusHistory) : Decidable h.Inv := by
  unfold FocusHistory.Inv; infer_instance

/-! ## Compositor containers and IPC command strings

`Con` carries the per-window data the embedded code reads: the id, the
rectangle width, and the two floating indicators
(`window.floating is not None and "on" in window.floating` and
`window.type == "floating_con"`).  `WsTree` is the slice of a freshly
fetched workspace subtree the code consults: tiling leaves
(`workspace.leaves()`), floating nodes (`workspace.floating_nodes`), and
the focused descendant (`workspace.find_focused()`).  `Env` provides the
two global-tree lookups (`con.get_tree().find_by_id` and the parent of a
container in that fresh tree). -/

structure Con where
  id : Int
  rectWidth : Int
  floatingOn : Bool
  typeFloatingCon : Bool
deriving Repr, DecidableEq

/-- `isFloating` of the base layout manager / master-stack manager. -/
def Con.isFloating (w : Con) : Bool := w.typeFloatingCon || w.floatingOn

structure WsTree where
  id : Int
  name : String
  leavesList : List Con
  floatingNodes : List Con
  focusedId : Option Int
deriving Repr, DecidableEq

/-- `workspace.find_by_id` restricted to the containers modelled. -/
def WsTree.findById (t : WsTree) (i : Int) : Option Con :=
  (t.leavesList ++ t.floatingNodes).find? (fun c => c.id == i)

/-- `workspace.find_focused()`. -/
def WsTree.findFocused (t : WsTree) : Option Con :=
  t.focusedId.bind t.findById

/-- The ids of the non-floating leaves of the workspace (what
`workspace.leaves()` yields; floating windows live in
`floating_nodes`). -/
def WsTree.nonFloatingLeafIds (t : WsTree) : List Int :=
  t.leavesList.map (fun c => c.id)

structure Env where
  findById : Int → Option Con
  parentIdOf : Int → Option Int

/-- A trace of compositor IPC commands, as the exact strings issued. -/
abbrev Trace := List String

/-- Formats the `[con_id=<n>] <rest>` selector prefix every issued
command uses. -/
def conCmd (conId : Int) (rest : String) : String :=
  "[con_id=" ++ toString conId ++ "] " ++ rest

/-- `moveWindowCommand`: mark the target, move to the mark, unmark. -/
def moveWindowCommand (moveId targetId : Int) : Trace :=
  [conCmd targetId "mark --add move_target",
   conCmd moveId "move window to mark move_target",
   conCmd targetId "unmark move_target"]

/-- `swapWindowsCommand`. -/
def swapWindowsCommand (firstWindowId secondWindowId : Int) : Trace :=
  [conCmd firstWindowId ("swap container with con_id " ++ toString secondWindowId)]

/-! ## Master/stack layout manager (src/layman/managers/master_stack.py)

The manager's mutable attributes become `MSState`; every method returns
the updated state plus the IPC command trace it issued, inside `Option`:
`none` models an uncaught Python exception (`IndexError` from a list
subscript, a failed `assert`).  Python list subscripts go through
`pyIndex`, which keeps Python's negative-index semantics. -/

inductive StackLayout
  | SPLITV
  | SPLITH
  | STACKING
  | TABBED
deriving Repr, DecidableEq

/-- `StackLayout.nextChoice` — the cyclic successor. -/
def StackLayout.nextChoice : StackLayout → StackLayout
  | .SPLITV => .SPLITH
  | .SPLITH => .STACKING
  | .STACKING => .TABBED
  | .TABBED => .SPLITV

/-- `self.stackLayout.name.lower()`. -/
def StackLayout.lowerName : StackLayout → String
  | .SPLITV => "splitv"
  | .SPLITH => "splith"
  | .STACKING => "stacking"
  | .TABBED => "tabbed"

inductive Side
  | RIGHT
  | LEFT
deriving Repr, DecidableEq

/-- `Side.opposite`. -/
def Side.opposite : Side → Side
  | .LEFT => .RIGHT
  | .RIGHT => .LEFT

/-- `Side.__str__`. -/
def Side.str : Side → String
  | .RIGHT => "right"
  | .LEFT => "left"

/-- The structured configuration error (`layman.config.ConfigError`,
raised by config consumers on invalid knob values or unknown layout
names; the class itself is a plain `Exception` subclass carrying the
message). -/
structure ConfigError where
  msg : String
deriving Repr, DecidableEq

/-- A configuration value as Python hands it to the validators: an int,
a float, a string, or some other object. `Option` of this is the result
of `options.getForWorkspace` (`none` = key absent / `None`). -/
inductive PyVal
  | int (n : Int)
  | float (q : Rat)
  | str (s : String)
  | other
deriving Repr, DecidableEq

/-- The five configuration knobs `MasterStackLayoutManager.__init__`
reads. -/
structure MSOptions where
  masterWidth : Option PyVal := none
  stackSide : Option PyVal := none
  stackLayout : Option PyVal := none
  visibleStackLimit : Option PyVal := none
  masterCount : Option PyVal := none
deriving Repr, DecidableEq

/-- `Side[name]` — enum lookup by (already upper-cased) member name. -/
def sideOfName (s : String) : Option Side :=
  if s = "RIGHT" then some Side.RIGHT
  else if s = "LEFT" then some Side.LEFT
  else none

/-- `StackLayout[name]` — enum lookup by member name. -/
def stackLayoutOfName (s : String) : Option StackLayout :=
  if s = "SPLITV" then some StackLayout.SPLITV
  else if s = "SPLITH" then some StackLayout.SPLITH
  else if s = "STACKING" then some StackLayout.STACKING
  else if s = "TABBED" then some StackLayout.TABBED
  else none

/-- `getEnumOption`: absent keys yield `none`; non-string values and
names outside the enum raise `ConfigError` (the `KeyError` is caught and
re-raised as `ConfigError`). -/
def getEnumOption (lookup : String → Option α) (key : String)
    (value : Option PyVal) : Except ConfigError (Option α) :=
  match value with
  | none => .ok none
  | some (.str s) =>
    match lookup s.toUpper with
    | some e => .ok (some e)
    | none => .error ⟨"Invalid " ++ key ++ ". Valid options listed."⟩
  | some _ => .error ⟨"Invalid " ++ key ++ ". Valid options listed."⟩

/-- The mutable attributes of `MasterStackLayoutManager`. -/
structure MSState where
  windowIds : List Int
  floatingWindowIds : List Int
  substackExists : Bool
  lastFocusedWindowId : Option Int
  maximized : Bool
  masterWidthBeforeMaximize : Int
  lastKnownMasterWidth : Int
  masterWidth : Int
  stackSide : Side
  stackLayout : StackLayout
  visibleStackLimit : Int
  masterCount : Int
deriving Repr, DecidableEq

/-- The `masterWidth` validation block of the constructor: default 50,
accept an int or float strictly between 0 and 100 (floats are truncated
by `int()`), reject everything else with `ConfigError`. -/
def msParseMasterWidth : Option PyVal → Except ConfigError Int
  | none => pure 50
  | some (.int n) =>
    if 0 < n ∧ n < 100 then pure n
    else throw ⟨"Invalid masterWidth. Must be a number between 0 and 100 exclusive."⟩
  | some (.float q) =>
    if 0 < q ∧ q < 100 then pure q.floor
    else throw ⟨"Invalid masterWidth. Must be a number between 0 and 100 exclusive."⟩
  | some _ =>
    throw ⟨"Invalid masterWidth. Must be a number between 0 and 100 exclusive."⟩

/-- The `visibleStackLimit` validation block: default 3, accept a
non-negative int. -/
def msParseVisibleStackLimit : Option PyVal → Except ConfigError Int
  | none => pure 3
  | some (.int n) =>
    if 0 ≤ n then pure n
    else throw ⟨"Invalid visibleStackLimit. Must be a non-negative integer."⟩
  | some _ => throw ⟨"Invalid visibleStackLimit. Must be a non-negative integer."⟩

/-- The `masterCount` validation block: default 1, accept an int that is
at least 1. -/
def msParseMasterCount : Option PyVal → Except ConfigError Int
  | none => pure 1
  | some (.int n) =>
    if 1 ≤ n then pure n
    else throw ⟨"Invalid masterCount. Must be an integer >= 1."⟩
  | some _ => throw ⟨"Invalid masterCount. Must be an integer >= 1."⟩

/-- `MasterStackLayoutManager.__init__` for the `workspace is None`
construction (the contract requires tolerating an absent workspace
handle; with a workspace present the same validations run first and the
tail additionally calls `arrangeWindows`, which replays `pushWindow`).
Validation order follows the source: `masterWidth`, then `stackSide`,
`stackLayout`, `visibleStackLimit`, `masterCount`. -/
def MasterStackLayoutManager.init (options : MSOptions) :
    Except ConfigError MSState := do
  let masterWidth ← msParseMasterWidth options.masterWidth
  let sideOpt ← getEnumOption sideOfName "stackSide" options.stackSide
  let stackSide := sideOpt.getD Side.RIGHT
  let layoutOpt ← getEnumOption stackLayoutOfName "stackLayout" options.stackLayout
  let stackLayout := layoutOpt.getD StackLayout.SPLITV
  let visibleStackLimit ← msParseVisibleStackLimit options.visibleStackLimit
  let masterCount ← msParseMasterCount options.masterCount
  pure { windowIds := [], floatingWindowIds := [], substackExists := false,
         lastFocusedWindowId := none, maximized := false,
         masterWidthBeforeMaximize := 0, lastKnownMasterWidth := 0,
         masterWidth := masterWidth, stackSide := stackSide,
         stackLayout := stackLayout, visibleStackLimit := visibleStackLimit,
         masterCount := masterCount }

/-- `getWindowListIndex`: `list.index`, with the `ValueError` caught and
turned into `None`. -/
def MSState.getWindowListIndex (s : MSState) (windowId : Int) : Option Int :=
  if windowId ∈ s.windowIds then some ((s.windowIds.indexOf windowId : Nat) : Int)
  else none

/-- `shouldSubstackExist`. -/
def MSState.shouldSubstackExist (s : MSState) : Bool :=
  s.stackLayout == StackLayout.SPLITV && 0 < s.visibleStackLimit &&
    s.visibleStackLimit < (s.windowIds.length : Int)

/-- `setStackLayout`: issued only with more than one tracked window. -/
def MSState.setStackLayout (s : MSState) : Trace :=
  match s.windowIds with
  | _ :: w1 :: _ => [conCmd w1 ("layout " ++ s.stackLayout.lowerName)]
  | _ => []

/-- `setMasterWidth` (the `masterWidth is not None` guard always holds:
the attribute is assigned in every constructor path). -/
def MSState.setMasterWidth (s : MSState) : Trace :=
  match s.windowIds with
  | masterId :: _ =>
    [conCmd masterId ("resize set width " ++ toString s.masterWidth ++ " ppt")]
  | [] => []

/-- `createSubstackIfNeeded`: fold everything past the visible-stack
limit into a new stacking container.  The guard `shouldSubstackExist`
makes the `windowIds[visibleStackLimit]` subscript safe, so this is
total. -/
def MSState.createSubstackIfNeeded (s : MSState) : MSState × Trace :=
  if s.shouldSubstackExist && !s.substackExists then
    match pyIndex s.windowIds s.visibleStackLimit with
    | some firstSubstack =>
      let moves := ((pySliceFrom s.windowIds (s.visibleStackLimit + 1)).reverse.map
        (fun windowId => moveWindowCommand windowId firstSubstack)).flatten
      ({ s with substackExists := true },
        conCmd firstSubstack "splitv, layout stacking" :: moves)
    | none => (s, [])
  else (s, [])

/-- `destroySubstackIfExists`: move every substack window back up next
to the last visible stack window. -/
def MSState.destroySubstackIfExists (s : MSState) : Option (MSState × Trace) :=
  if s.substackExists then do
    let lastVisibleStack ← pyIndex s.windowIds (s.visibleStackLimit - 1)
    let moves := ((pySliceFrom s.windowIds s.visibleStackLimit).reverse.map
      (fun windowId => moveWindowCommand windowId lastVisibleStack)).flatten
    pure ({ s with substackExists := false }, moves)
  else pure (s, [])

/-- `removeExtraNesting`: re-fetches the master from a fresh tree; a
missing master is only logged, a missing parent fails the `assert`. -/
def removeExtraNesting (env : Env) (workspace : WsTree) (s : MSState) :
    Option Trace := do
  let masterId ← pyIndex s.windowIds 0
  match env.findById masterId with
  | none => pure []
  | some _ =>
    match env.parentIdOf masterId with
    | none => none
    | some parentId =>
      if parentId ≠ workspace.id then pure [conCmd parentId "split none"]
      else pure []

/-- The insertion-point policy at the top of `pushWindow`: start from 0;
an explicit `positionAfter` found in `windowIds` moves it to that index
plus one; otherwise a truthy remembered `lastFocusedWindowId` that is
found in the workspace tree and in `windowIds` moves it to that window's
index (with no `+ 1`). -/
def pushPositionAtIndex (ws : WsTree) (s : MSState) (positionAfter : Option Con) :
    Int :=
  match positionAfter with
  | some pa =>
    match s.getWindowListIndex pa.id with
    | none => 0
    | some positionAfterIndex => positionAfterIndex + 1
  | none =>
    match s.lastFocusedWindowId with
    | none => 0
    | some lastFocusedId =>
      if lastFocusedId == 0 then 0
      else
        match ws.findById lastFocusedId with
        | none => 0
        | some lastFocusedWindow =>
          match s.getWindowListIndex lastFocusedWindow.id with
          | none => 0
          | some lastFocusedIndex => lastFocusedIndex

/-- The physical-command part of `pushWindow` before the list insertion:
nothing for 0 windows, the master/stack creation for exactly 1, and the
four-way position split for 2 or more. -/
def pushWindowCommands (s : MSState) (window : Con) (positionAtIndex : Int) :
    Option Trace :=
  if s.windowIds.length == 0 then pure []
  else if s.windowIds.length == 1 then do
    let w0 ← pyIndex s.windowIds 0
    let masterId := if positionAtIndex == 0 then window.id else w0
    let firstStackId := if positionAtIndex == 0 then w0 else window.id
    let base :=
      if s.stackSide == Side.LEFT then
        conCmd firstStackId "splith" :: moveWindowCommand masterId firstStackId
      else
        conCmd masterId "splith" :: moveWindowCommand firstStackId masterId
    pure (base ++ [conCmd firstStackId "splitv"])
  else if positionAtIndex == 0 then do
    let w0 ← pyIndex s.windowIds 0
    let w1 ← pyIndex s.windowIds 1
    pure (swapWindowsCommand window.id w0 ++ moveWindowCommand w0 w1 ++
      swapWindowsCommand w0 w1)
  else if positionAtIndex == 1 ||
      (s.substackExists && positionAtIndex == s.visibleStackLimit) then do
    let wAt ← pyIndex s.windowIds positionAtIndex
    pure (moveWindowCommand window.id wAt ++ swapWindowsCommand window.id wAt)
  else do
    let wPrev ← pyIndex s.windowIds (positionAtIndex - 1)
    pure (moveWindowCommand window.id wPrev)

/-- The demote step of `pushWindow`: a new visible-stack window pushes
the last visible stack window down into the substack. -/
def pushWindowDemote (s : MSState) (positionAtIndex : Int) : Option Trace :=
  if s.substackExists && positionAtIndex < s.visibleStackLimit then do
    let lastVisibleStack ← pyIndex s.windowIds (s.visibleStackLimit - 1)
    let firstSubstack ← pyIndex s.windowIds s.visibleStackLimit
    pure (moveWindowCommand lastVisibleStack firstSubstack ++
      swapWindowsCommand lastVisibleStack firstSubstack)
  else pure []

/-- The tail of `pushWindow`: after the insertion, when exactly two
windows are now tracked, adjust the just-created master/stack pair. -/
def pushWindowFinish (env : Env) (ws : WsTree) (s : MSState) : Option Trace :=
  if s.windowIds.length == 2 then do
    let tr4 := s.setStackLayout
    let tr5 := s.setMasterWidth
    let tr6 ← removeExtraNesting env ws s
    pure (tr4 ++ tr5 ++ tr6)
  else pure []

/-- `pushWindow`. -/
def MSState.pushWindow (env : Env) (ws : WsTree) (s : MSState) (window : Con)
    (positionAfter : Option Con) : Option (MSState × Trace) := do
  let tr1 ← pushWindowCommands s window (pushPositionAtIndex ws s positionAfter)
  let tr2 ← pushWindowDemote s (pushPositionAtIndex ws s positionAfter)
  let inserted := { s with windowIds := pyInsert s.windowIds (pushPositionAtIndex ws s positionAfter) window.id }
  let cs := inserted.createSubstackIfNeeded
  let tr4 ← pushWindowFinish env ws cs.1
  pure (cs.1, tr1 ++ tr2 ++ cs.2 ++ tr4)

/-- `windowAdded`: floating windows are only tracked; everything else is
pushed. -/
def MSState.windowAdded (env : Env) (ws : WsTree) (s : MSState) (window : Con) :
    Option (MSState × Trace) :=
  if window.isFloating then
    some ({ s with floatingWindowIds :=
      if window.id ∈ s.floatingWindowIds then s.floatingWindowIds
      else s.floatingWindowIds ++ [window.id] }, [])
  else s.pushWindow env ws window none

/-- `popWindow`. -/
def MSState.popWindow (s : MSState) (window : Con) : Option (MSState × Trace) := do
  match s.getWindowListIndex window.id with
  | none => pure (s, [])
  | some sourceIndex =>
    let s := { s with windowIds := s.windowIds.erase window.id }
    let tr1 : Trace ←
      if sourceIndex == 0 && 2 ≤ s.windowIds.length then do
        let w0 ← pyIndex s.windowIds 0
        let sideName := (Side.opposite s.stackSide).str
        let resize : Trace ←
          if 1 < s.windowIds.length then
            if 0 < window.rectWidth then
              pure [conCmd w0 ("resize set width " ++ toString window.rectWidth ++ " px")]
            else if (0 : Int) < s.lastKnownMasterWidth then
              pure [conCmd w0 ("resize set width " ++ toString s.lastKnownMasterWidth ++ " px")]
            else
              pure [conCmd w0 ("resize set width " ++ toString s.masterWidth ++ " ppt")]
          else pure []
        pure (conCmd w0 ("move " ++ sideName) :: resize)
      else pure []
    if s.substackExists then do
      let tr2 : Trace ←
        if sourceIndex < s.visibleStackLimit then do
          let lastVisibleStack ← pyIndex s.windowIds (s.visibleStackLimit - 2)
          let firstSubstack ← pyIndex s.windowIds (s.visibleStackLimit - 1)
          pure (moveWindowCommand firstSubstack lastVisibleStack)
        else pure []
      if s.shouldSubstackExist then pure (s, tr1 ++ tr2)
      else do
        let (s, tr3) ← s.destroySubstackIfExists
        pure (s, tr1 ++ tr2 ++ tr3)
    else pure (s, tr1)

/-- `windowRemoved`: floating windows are only untracked; everything
else is popped. -/
def MSState.windowRemoved (s : MSState) (window : Con) :
    Option (MSState × Trace) :=
  if window.isFloating then
    some ({ s with floatingWindowIds := s.floatingWindowIds.erase window.id }, [])
  else s.popWindow window

/-- `_moveWindowMaximized`. -/
def MSState.moveWindowMaximized (s : MSState) (window : Con)
    (sourceIndex targetIndex : Int) : Option Trace := do
  if targetIndex == 0 then do
    let w0 ← pyIndex s.windowIds 0
    pure (moveWindowCommand window.id w0 ++ swapWindowsCommand window.id w0)
  else do
    let moveTarget := if targetIndex < sourceIndex then targetIndex - 1 else targetIndex
    let wt ← pyIndex s.windowIds moveTarget
    pure (moveWindowCommand window.id wt)

/-- `_moveWindowNormal`: returns the trace plus the
skip-substack-rebalance flag. -/
def MSState.moveWindowNormal (s : MSState) (window : Con)
    (sourceIndex targetIndex : Int) : Option (Bool × Trace) := do
  let masterId ← pyIndex s.windowIds 0
  let topOfStackId ← pyIndex s.windowIds 1
  if (sourceIndex == 0 && targetIndex == 1) ||
      (sourceIndex == 1 && targetIndex == 0) then
    pure (false, swapWindowsCommand masterId topOfStackId)
  else if sourceIndex == 0 then do
    let wt ← pyIndex s.windowIds targetIndex
    pure (false, swapWindowsCommand topOfStackId masterId ++
      moveWindowCommand masterId wt)
  else if targetIndex == 0 then do
    let wsrc ← pyIndex s.windowIds sourceIndex
    pure (false, swapWindowsCommand masterId wsrc ++
      moveWindowCommand masterId topOfStackId ++
      swapWindowsCommand masterId topOfStackId)
  else if sourceIndex - targetIndex == -1 || sourceIndex - targetIndex == 1 then do
    let wsrc ← pyIndex s.windowIds sourceIndex
    let wt ← pyIndex s.windowIds targetIndex
    pure (true, swapWindowsCommand wsrc wt)
  else if targetIndex == 1 then do
    let wsrc ← pyIndex s.windowIds sourceIndex
    pure (false, moveWindowCommand wsrc topOfStackId ++
      swapWindowsCommand wsrc topOfStackId)
  else if s.substackExists && targetIndex == s.visibleStackLimit &&
      s.visibleStackLimit < sourceIndex then do
    let wt ← pyIndex s.windowIds targetIndex
    pure (false, moveWindowCommand window.id wt ++
      swapWindowsCommand window.id wt)
  else do
    let wt ← pyIndex s.windowIds
      (if sourceIndex < targetIndex then targetIndex else targetIndex - 1)
    pure (false, moveWindowCommand window.id wt)

/-- `_rebalanceSubstackAfterMove`. -/
def MSState.rebalanceSubstackAfterMove (s : MSState) (window : Con)
    (sourceIndex targetIndex : Int) : Option Trace := do
  let tr1 : Trace ←
    if s.visibleStackLimit ≤ sourceIndex && targetIndex < s.visibleStackLimit then do
      let lastVisibleStack ← pyIndex s.windowIds (s.visibleStackLimit - 1)
      let firstSubstack0 ← pyIndex s.windowIds s.visibleStackLimit
      let firstSubstack ←
        if firstSubstack0 == window.id then pyIndex s.windowIds (s.visibleStackLimit + 1)
        else pure firstSubstack0
      pure (moveWindowCommand lastVisibleStack firstSubstack ++
        swapWindowsCommand lastVisibleStack firstSubstack)
    else pure []
  let tr2 : Trace ←
    if sourceIndex < s.visibleStackLimit && s.visibleStackLimit ≤ targetIndex then do
      let lastVisibleStack ← pyIndex s.windowIds (s.visibleStackLimit - 1)
      let firstSubstack ← pyIndex s.windowIds s.visibleStackLimit
      pure (moveWindowCommand firstSubstack lastVisibleStack)
    else pure []
  pure (tr1 ++ tr2)

/-- `moveWindowToIndex`: the leading `assert` bounds the target index;
too few windows, an untracked window, and a no-op same-index move all
return early with no physical command. -/
def MSState.moveWindowToIndex (s : MSState) (window : Con) (targetIndex : Int) :
    Option (MSState × Trace) := do
  if ¬ (0 ≤ targetIndex ∧ targetIndex < (s.windowIds.length : Int)) then none
  else if s.windowIds.length ≤ 1 then pure (s, [])
  else
    match s.getWindowListIndex window.id with
    | none => pure (s, [])
    | some sourceIndex =>
      if sourceIndex == targetIndex then pure (s, [])
      else do
        let tr : Trace ←
          if s.maximized then s.moveWindowMaximized window sourceIndex targetIndex
          else do
            let (skip, trn) ← s.moveWindowNormal window sourceIndex targetIndex
            if s.substackExists && !skip then do
              let trr ← s.rebalanceSubstackAfterMove window sourceIndex targetIndex
              pure (trn ++ trr)
            else pure trn
        let ids2 := pyInsert (s.windowIds.erase window.id) targetIndex window.id
        let s := { s with windowIds := ids2 }
        pure (s, tr)

/-- `toggleStackLayout`: cycle the enum; rebuild the physical stack only
when not maximized. -/
def MSState.toggleStackLayout (s : MSState) : Option (MSState × Trace) := do
  let s := { s with stackLayout := s.stackLayout.nextChoice }
  if !s.maximized then do
    let (s, tr1) ← s.destroySubstackIfExists
    let tr2 := s.setStackLayout
    let (s, tr3) := s.createSubstackIfNeeded
    pure (s, tr1 ++ tr2 ++ tr3)
  else pure (s, [])

/-- `toggleMaximize`: maximizing remembers the master's pixel width,
destroys the substack and folds everything into one tabbed container;
unmaximizing reverses those steps and re-applies the remembered
width. -/
def MSState.toggleMaximize (ws : WsTree) (s : MSState) :
    Option (MSState × Trace) := do
  let (s, tr) ←
    if 2 ≤ s.windowIds.length then
      if !s.maximized then do
        let w0 ← pyIndex s.windowIds 0
        let master ← ws.findById w0
        let s := { s with masterWidthBeforeMaximize := master.rectWidth }
        let (s, trd) ← s.destroySubstackIfExists
        let w0b ← pyIndex s.windowIds 0
        let w1 ← pyIndex s.windowIds 1
        pure (s, trd ++ moveWindowCommand w0b w1 ++ swapWindowsCommand w0b w1 ++
          [conCmd w0b "layout tabbed"])
      else do
        let w0 ← pyIndex s.windowIds 0
        let first := [conCmd w0 "layout splitv"]
        let cs := s.createSubstackIfNeeded
        let sideName := (Side.opposite cs.1.stackSide).str
        pure (cs.1, first ++ cs.2 ++ [conCmd w0 ("move " ++ sideName),
          conCmd w0 ("resize set width " ++
            toString cs.1.masterWidthBeforeMaximize ++ " px")] ++ cs.1.setStackLayout)
    else pure (s, [])
  pure ({ s with maximized := !s.maximized }, tr)

/-! ## Orchestrator (class `Layman` in src/layman/layman.py)

`WorkspaceState` is the per-workspace dataclass.  A layout-manager
instance is modelled by the short name of the algorithm it was built
from; constructing one is recorded as an `Effect.instantiate`.
Delegations into a layout-manager method are recorded as
`Effect.managerCall`, carrying the `windowIds` the orchestrator holds at
the moment of the call (this is what "the update happens before the
manager is invoked" means observationally).  Whether the delegated call
raises is a parameter (`mgrRaises` / `LMOutcome`): the orchestrator's
behaviour must be right for either outcome, whatever the algorithm
does. -/

structure WorkspaceState where
  layoutManager : Option String := none
  layoutName : String := "none"
  windowIds : List Int := []
  isExcluded : Bool := false
  focusHistory : FocusHistory := FocusHistory.init
  fakeFullscreen : Bool := false
  fakeFullscreenWindowId : Option Int := none
  savedStackLayout : Option String := none
deriving Repr, DecidableEq

/-- The observable effects of an orchestrator call, in order: IPC
commands, log records, the stale-focus warning, the entry into
`setWorkspaceLayout`, layout-manager construction, and layout-manager
method delegation (with the `windowIds` visible to the manager at call
time). -/
inductive Effect
  | ipc (command : String)
  | logDebug (msg : String)
  | logError (msg : String)
  | warnStale (eventWindowId : Int) (currentFocusedId : Option Int)
  | logException
  | callSetLayout (workspaceName : String) (explicitLayoutName : Option String)
  | instantiate (layoutName : String) (workspaceName : String)
  | managerCall (method : String) (layoutName : String) (workspaceName : String)
      (observedWindowIds : List Int)
deriving Repr, DecidableEq

/-- Python exceptions that can escape the modelled orchestrator
methods. -/
inductive PyErr
  | keyErr
  | assertionErr
  | configErr (e : ConfigError)
deriving Repr, DecidableEq

/-- The outcome of one delegated layout-manager method call: it ran to
completion having produced `effects`, or it raised after producing
them. -/
inductive LMOutcome
  | ok (effects : List Effect)
  | raised (effects : List Effect)
deriving Repr, DecidableEq

structure Layman where
  workspaceStates : List (String × WorkspaceState)
  builtinLayouts : List String
  userLayouts : List String
deriving Repr, DecidableEq

/-- `self.workspaceStates[name]`, as `Option`. -/
def Layman.lookupState (lay : Layman) (name : String) : Option WorkspaceState :=
  (lay.workspaceStates.find? (fun p => p.1 == name)).map Prod.snd

/-- Store back a (mutated) workspace state under its name. -/
def Layman.updateState (lay : Layman) (name : String) (st : WorkspaceState) :
    Layman :=
  { lay with workspaceStates :=
      lay.workspaceStates.map (fun p => if p.1 == name then (p.1, st) else p) }

/-- The four native layout names passed straight to i3/Sway. -/
def nativeLayoutNames : List String := ["splitv", "splith", "tabbed", "stacking"]

/-- The builtin registry as populated in `Layman.__init__` (keyed by
each manager class's `shortName`; `Autotiling` and `Grid` come from the
two manager modules registered alongside the ones excerpted here). -/
def builtinLayoutNames : List String :=
  ["none", "Autotiling", "MasterStack", "Grid", "ThreeColumn", "TabbedPairs"]

/-- `getLayoutByShortName`: builtins first, then user layouts, else
`None`.  The class found is identified by its short name. -/
def Layman.getLayoutByShortName (lay : Layman) (shortName : String) :
    Option String :=
  if shortName ∈ lay.builtinLayouts then some shortName
  else if shortName ∈ lay.userLayouts then some shortName
  else none

/-- `setWorkspaceLayoutCommand`: with exactly one window and no manager,
explicitly re-apply the plain native layout to that window. -/
def Layman.setWorkspaceLayoutCommand (lay : Layman) (workspace : WsTree) :
    Except PyErr (List Effect) := do
  match lay.lookupState workspace.name with
  | none => throw .keyErr
  | some state =>
    if state.windowIds.length ≠ 1 then
      pure [.logDebug "window count is not 1, ignoring"]
    else if state.layoutName ≠ "" && state.layoutManager == none then
      match state.windowIds.head? with
      | some first =>
        pure [.ipc (conCmd first "split none"),
              .ipc (conCmd first ("layout " ++ state.layoutName))]
      | none => throw .keyErr
    else if state.layoutName = "" then throw .assertionErr
    else pure [.logDebug "workspace already has a layout, ignoring"]

/-- The name-resolution prologue of `setWorkspaceLayout`: a falsy
(absent or empty) `layoutName` asserts and reuses the recorded
`state.layoutName`; otherwise `state.layoutName` is overwritten with the
explicit name *before* anything else happens. -/
def resolveLayoutName (state : WorkspaceState) (layoutName : Option String) :
    Except PyErr (WorkspaceState × String) :=
  if (layoutName.getD "") = "" then
    if state.layoutName = "" then throw PyErr.assertionErr
    else pure (state, state.layoutName)
  else
    pure ({ state with layoutName := layoutName.getD "" }, layoutName.getD "")

/-- `setWorkspaceLayout`: resolve the name (no explicit name means the
recorded `layoutName`, for a full reload), refuse excluded workspaces
with a logged error, clear the manager for native names, instantiate a
registered algorithm otherwise, and raise `ConfigError` for unknown
names. -/
def Layman.setWorkspaceLayout (lay : Layman) (workspace : Option WsTree)
    (workspaceName : String) (layoutName : Option String) :
    Except PyErr (Layman × List Effect) := do
  match lay.lookupState workspaceName with
  | none => throw .keyErr
  | some state =>
    let resolved ← resolveLayoutName state layoutName
    let state := resolved.1
    let name := resolved.2
    let lay := lay.updateState workspaceName state
    if state.isExcluded then
      pure (lay, [.logError "Attempting to set layout for excluded workspace"])
    else if name ∈ nativeLayoutNames then
      let state := { state with layoutManager := none }
      let lay := lay.updateState workspaceName state
      match workspace with
      | some ws => do
        let effs ← lay.setWorkspaceLayoutCommand ws
        pure (lay, effs ++ [.logDebug "Initialized workspace"])
      | none => pure (lay, [.logDebug "Initialized workspace"])
    else
      match lay.getLayoutByShortName name with
      | some cls =>
        let state := { state with layoutManager := some cls }
        let lay := lay.updateState workspaceName state
        pure (lay, [.instantiate cls workspaceName, .logDebug "Initialized workspace"])
      | none =>
        throw (.configErr ⟨"Unknown layout '" ++ name ++ "' for workspace " ++
          workspaceName ++ ". Available layouts listed."⟩)

/-- The shared workspace-name resolution (`if not workspaceName:
assert workspace; workspaceName = workspace.name`) used by the guard and
by `handleWindowRemoved`. -/
def resolveWsName (workspace : Option WsTree) (workspaceName : Option String) :
    Except PyErr String :=
  if (workspaceName.getD "") = "" then
    match workspace with
    | none => throw PyErr.assertionErr
    | some ws => pure ws.name
  else pure (workspaceName.getD "")

/-- The `layoutManagerReloader` context manager: resolve the workspace
name (asserting one exists), run the body; any exception is caught and
answered by exactly one `setWorkspaceLayout(workspace, workspaceName)`
with no explicit layout name. -/
def layoutManagerReloader (lay : Layman) (workspace : Option WsTree)
    (workspaceName : Option String) (body : LMOutcome) :
    Except PyErr (Layman × List Effect) := do
  let wsName ← resolveWsName workspace workspaceName
  if wsName = "" then throw .assertionErr
  else
    match body with
    | .ok effects => pure (lay, effects)
    | .raised effects => do
      let res ← lay.setWorkspaceLayout workspace wsName none
      pure (res.1, effects ++
        [.logException, .logDebug "Reloading layout manager after exception",
         .callSetLayout wsName none] ++ res.2)

/-- `handleWindowAdded`: excluded workspaces are skipped; an active
manager gets a guarded `windowAdded` delegation (observing the current
`windowIds`); otherwise the native-layout fallback runs. -/
def Layman.handleWindowAdded (lay : Layman) (mgrRaises : Bool)
    (workspace : WsTree) (window : Con) : Except PyErr (Layman × List Effect) := do
  match lay.lookupState workspace.name with
  | none => throw .keyErr
  | some state =>
    if state.isExcluded then pure (lay, [.logDebug "Workspace excluded"])
    else
      match state.layoutManager with
      | some layoutName =>
        let callEff := Effect.managerCall "windowAdded" layoutName workspace.name
          state.windowIds
        let body := if mgrRaises then LMOutcome.raised [callEff]
          else LMOutcome.ok [callEff]
        layoutManagerReloader lay (some workspace) none body
      | none => do
        let effs ← lay.setWorkspaceLayoutCommand workspace
        pure (lay, effs)

/-- `handleWindowRemoved`: like `handleWindowAdded` but tolerating a
vanished workspace container (an explicit name is then required). -/
def Layman.handleWindowRemoved (lay : Layman) (mgrRaises : Bool)
    (workspace : Option WsTree) (workspaceName : Option String) :
    Except PyErr (Layman × List Effect) := do
  let wsName ← resolveWsName workspace workspaceName
  if wsName = "" then throw .assertionErr
  else
    match lay.lookupState wsName with
    | none => throw .keyErr
    | some state =>
      if state.isExcluded then pure (lay, [.logDebug "Workspace excluded"])
      else
        match state.layoutManager with
        | some layoutName =>
          let callEff := Effect.managerCall "windowRemoved" layoutName wsName
            state.windowIds
          let body := if mgrRaises then LMOutcome.raised [callEff]
            else LMOutcome.ok [callEff]
          layoutManagerReloader lay workspace (some wsName) body
        | none =>
          match workspace with
          | some ws => do
            let effs ← lay.setWorkspaceLayoutCommand ws
            pure (lay, effs)
          | none => pure (lay, [])

/-- `windowCreated` (handler of `window::new`): record the id in
`windowIds` first, then delegate.  The window-rule engine is outside the
specified core and is modelled with an empty rule list, so the rule
branch (`if ... and self.ruleEngine.rules:`) is skipped exactly as in
the source with no rules configured. -/
def Layman.windowCreated (lay : Layman) (mgrRaises : Bool)
    (workspace : Option WsTree) (window : Option Con) :
    Except PyErr (Layman × List Effect) := do
  match workspace, window with
  | some ws, some win =>
    match lay.lookupState ws.name with
    | none => throw .keyErr
    | some state => do
      let state := { state with windowIds :=
        if win.id ∈ state.windowIds then state.windowIds
        else state.windowIds ++ [win.id] }
      let lay := lay.updateState ws.name state
      let res ← lay.handleWindowAdded mgrRaises ws win
      pure (res.1, Effect.logDebug "Adding window" :: res.2)
  | _, _ => pure (lay, [.logDebug "no window found"])

/-- `windowClosed` (handler of `window::close`): find the recording
workspace by membership, drop the id from `windowIds` and the focus
history, clear fake-fullscreen bookkeeping if it was that window, then
delegate. -/
def Layman.windowClosed (lay : Layman) (mgrRaises : Bool) (tree : List WsTree)
    (workspaceArg : Option WsTree) (eventContainerId : Int) :
    Except PyErr (Layman × List Effect) := do
  match lay.workspaceStates.find? (fun p => eventContainerId ∈ p.2.windowIds) with
  | none => pure (lay, [.logDebug "workspace not found"])
  | some found =>
    let wsName := found.1
    let state := found.2
    let workspace :=
      match tree.find? (fun w => w.name == wsName) with
      | some w => some w
      | none => workspaceArg
    let state := { state with
      windowIds := state.windowIds.erase eventContainerId,
      focusHistory := state.focusHistory.remove eventContainerId }
    let state :=
      if state.fakeFullscreen && state.fakeFullscreenWindowId == some eventContainerId
      then { state with
        fakeFullscreen := false,
        fakeFullscreenWindowId := none,
        savedStackLayout := none }
      else state
    let lay := lay.updateState wsName state
    let res ← lay.handleWindowRemoved mgrRaises workspace (some wsName)
    pure (res.1, Effect.logDebug "Removing window" :: res.2)

/-- `windowFocused` (handler of `window::focus`): drop events with no
workspace, skip excluded workspaces, verify against the fresh snapshot
that the event's window is still the focused one (warning and returning
on a stale event), then record focus history and delegate. -/
def Layman.windowFocused (lay : Layman) (mgrRaises : Bool)
    (eventContainerId : Int) (workspace : Option WsTree) (window : Option Con) :
    Except PyErr (Layman × List Effect) := do
  match workspace with
  | none => pure (lay, [.logDebug "no workspace found"])
  | some ws =>
    match window with
    | none => throw .assertionErr
    | some win =>
      match lay.lookupState ws.name with
      | none => throw .keyErr
      | some state =>
        if state.isExcluded then pure (lay, [.logDebug "Workspace excluded"])
        else
          match ws.findFocused with
          | none => pure (lay, [.warnStale eventContainerId none])
          | some focusedWin =>
            if eventContainerId ≠ focusedWin.id then
              pure (lay, [.warnStale eventContainerId (some focusedWin.id)])
            else do
              let state := { state with
                focusHistory := state.focusHistory.push win.id }
              let lay := lay.updateState ws.name state
              match state.layoutManager with
              | some layoutName =>
                let callEff := Effect.managerCall "windowFocused" layoutName
                  ws.name state.windowIds
                let body := if mgrRaises then LMOutcome.raised [callEff]
                  else LMOutcome.ok [callEff]
                layoutManagerReloader lay (some ws) none body
              | none => pure (lay, [])

/-- `initWorkspace`: create the per-workspace state on first sight,
seeding `windowIds` from the tiling leaves *chained with the floating
nodes*, then set the configured default layout (the `str()` of the
configured value) unless excluded.  `excludedWorkspaces` and
`defaultLayout` stand for the two configuration reads. -/
def Layman.initWorkspace (lay : Layman) (excludedWorkspaces : List String)
    (defaultLayout : String) (workspace : WsTree) :
    Except PyErr (Layman × List Effect) := do
  if (lay.lookupState workspace.name).isSome then pure (lay, [])
  else
    let state : WorkspaceState := {}
    let state := { state with
      isExcluded := workspace.name ∈ excludedWorkspaces,
      windowIds :=
        (workspace.leavesList ++ workspace.floatingNodes).map (fun c => c.id) }
    let lay := { lay with
      workspaceStates := lay.workspaceStates ++ [(workspace.name, state)] }
    if defaultLayout ≠ "" && !state.isExcluded then do
      let res ← lay.setWorkspaceLayout (some workspace) workspace.name
        (some defaultLayout)
      pure (res.1, Effect.logDebug "workspace window ids" :: res.2)
    else pure (lay, [.logDebug "workspace window ids"])

/-- Recognizer for the `setWorkspaceLayout` entry effect. -/
def Effect.isCallSetLayout : Effect → Bool
  | .callSetLayout _ _ => true
  | _ => false

/-- Recognizer for layout-manager method delegation effects. -/
def Effect.isManagerCall : Effect → Bool
  | .managerCall _ _ _ _ => true
  | _ => false

/-- The `windowIds` a manager delegation observed (for other effects,
`none`). -/
def Effect.observed : Effect → Option (List Int)
  | .managerCall _ _ _ ids => some ids
  | _ => none

/-! ## Validity of configuration values (read off the constructor's checks) -/

/-- `masterWidth` acceptance: an int or float strictly between 0 and 100. -/
def validMasterWidthVal : PyVal → Prop
  | .int n => 0 < n ∧ n < 100
  | .float q => 0 < q ∧ q < 100
  | _ => False

/-- `visibleStackLimit` acceptance: a non-negative int. -/
def validVisibleStackLimitVal : PyVal → Prop
  | .int n => 0 ≤ n
  | _ => False

/-- `masterCount` acceptance: an int that is at least 1. -/
def validMasterCountVal : PyVal → Prop
  | .int n => 1 ≤ n
  | _ => False

/-- Enum-knob acceptance: a string naming a member (case-insensitively). -/
def validEnumVal (lookup : String → Option α) : PyVal → Prop
  | .str s => (lookup s.toUpper).isSome
  | _ => False

/-! ## Concrete instances used by witnesses and counterexamples -/

/-- The master/stack state produced by construction with an empty
configuration (all defaults). -/
def msDefault : MSState :=
  { windowIds := [], floatingWindowIds := [], substackExists := false,
    lastFocusedWindowId := none, maximized := false,
    masterWidthBeforeMaximize := 0, lastKnownMasterWidth := 0,
    masterWidth := 50, stackSide := Side.RIGHT, stackLayout := StackLayout.SPLITV,
    visibleStackLimit := 3, masterCount := 1 }

/-- A plain tiling window container. -/
def tile (i : Int) (w : Int) : Con :=
  { id := i, rectWidth := w, floatingOn := false, typeFloatingCon := false }

/-- A floating window container (user floating turned on). -/
def floatCon (i : Int) (w : Int) : Con :=
  { id := i, rectWidth := w, floatingOn := true, typeFloatingCon := false }

/-- An environment whose fresh-tree lookups find nothing (the window
tree moved on). -/
def envEmpty : Env := { findById := fun _ => none, parentIdOf := fun _ => none }

/-- Workspace snapshot for the insertion-policy counterexample: tiling
windows 100 and 300, nothing floating, no focus. -/
def wsA : WsTree :=
  { id := 999, name := "1", leavesList := [tile 100 500, tile 300 500],
    floatingNodes := [], focusedId := none }

/-- Master/stack state tracking `[100, 300]` and remembering window 300
as last focused. -/
def sA : MSState :=
  { msDefault with windowIds := [100, 300], lastFocusedWindowId := some 300 }

/-- Workspace snapshot for the maximize round-trip: master 100 is 640
pixels wide. -/
def wsB : WsTree :=
  { id := 999, name := "1", leavesList := [tile 100 640, tile 200 500],
    floatingNodes := [], focusedId := none }

/-- A workspace whose only window is floating window 7. -/
def wsFloat : WsTree :=
  { id := 998, name := "1", leavesList := [], floatingNodes := [floatCon 7 300],
    focusedId := none }

/-- Orchestrator with one freshly initialized workspace "1" (default
state: no manager, layout name "none", no windows). -/
def layFresh : Layman :=
  { workspaceStates := [("1", {})], builtinLayouts := builtinLayoutNames,
    userLayouts := [] }

/-- Orchestrator with workspace "9" excluded. -/
def layExcluded : Layman :=
  { workspaceStates := [("9", { isExcluded := true })],
    builtinLayouts := builtinLayoutNames, userLayouts := [] }

/-- Orchestrator with workspace "2" excluded and windows 100 and 200
tracked there. -/
def layExcludedFocus : Layman :=
  { workspaceStates := [("2", { isExcluded := true, windowIds := [100, 200] })],
    builtinLayouts := builtinLayoutNames, userLayouts := [] }

/-- Workspace snapshot named "2" whose focused window is 200. -/
def wsFocus200 : WsTree :=
  { id := 997, name := "2", leavesList := [tile 100 500, tile 200 500],
    floatingNodes := [], focusedId := some 200 }

/-- Workspace snapshot named "1" whose focused window is 200 (used to
make a focus event for window 100 stale). -/
def wsStale : WsTree :=
  { id := 995, name := "1", leavesList := [tile 100 500, tile 200 500],
    floatingNodes := [], focusedId := some 200 }

/-- Orchestrator with a MasterStack manager active on workspace "3". -/
def layMS : Layman :=
  { workspaceStates :=
      [("3", { layoutManager := some "MasterStack", layoutName := "MasterStack",
               windowIds := [100, 200] })],
    builtinLayouts := builtinLayoutNames, userLayouts := [] }

/-- Workspace snapshot named "3". -/
def wsThree : WsTree :=
  { id := 996, name := "3", leavesList := [tile 100 500, tile 200 500],
    floatingNodes := [], focusedId := some 200 }

/-! ## Theorems -/

lemma List.consTrim_inv (m : Nat) (i : Int) (base : List Int)
    (hb : base.Nodup) (hnm : i ∉ base) (hl : base.length ≤ m) :
    (if m < (i :: base).length then (i :: base).dropLast else (i :: base)).Nodup ∧
    (if m < (i :: base).length then (i :: base).dropLast else (i :: base)).length ≤ m := by
  constructor
  · split
    · exact (List.dropLast_sublist _).nodup (List.nodup_cons.mpr ⟨hnm, hb⟩)
    · exact List.nodup_cons.mpr ⟨hnm, hb⟩
  · split
    · next hgt =>
      simp only [List.length_dropLast, List.length_cons]
      omega
    · next hle =>
      simp only [List.length_cons] at hle ⊢
      omega

lemma FocusHistory.push_inv (h : FocusHistory) (i : Int) (hinv : h.Inv) :
    (h.push i).Inv := by
  obtain ⟨hnd, hlen⟩ := hinv
  by_cases hh : h.history.head? = some i
  · simp only [FocusHistory.push, if_pos hh]
    exact ⟨hnd, hlen⟩
  · simp only [FocusHistory.push, if_neg hh]
    have hbnd : (if i ∈ h.history then h.history.erase i else h.history).Nodup := by
      split
      · exact hnd.erase i
      · exact hnd
    have hbnm : i ∉ (if i ∈ h.history then h.history.erase i else h.history) := by
      split
      · intro hm
        exact absurd ((hnd.mem_erase_iff).mp hm).1 (by simp)
      · assumption
    have hblen :
        (if i ∈ h.history then h.history.erase i else h.history).length
          ≤ h.maxSize := by
      refine le_trans ?_ hlen
      split
      · exact (h.history.erase_sublist i).length_le
      · exact le_rfl
    exact List.consTrim_inv h.maxSize i _ hbnd hbnm hblen

lemma FocusHistory.applyOp_inv (h : FocusHistory) (op : FHOp) (hinv : h.Inv) :
    (h.applyOp op).Inv := by
  obtain ⟨hnd, hlen⟩ := hinv
  cases op with
  | push windowId => exact h.push_inv windowId ⟨hnd, hlen⟩
  | previous =>
    simp only [FocusHistory.applyOp, FocusHistory.previous]
    by_cases hc : h.history.length ≤ h.currentIndex + 1
    · rw [if_pos hc]
      exact ⟨hnd, hlen⟩
    · rw [if_neg hc]
      exact ⟨hnd, hlen⟩
  | remove windowId =>
    simp only [FocusHistory.applyOp, FocusHistory.remove]
    split
    · exact ⟨hnd.erase windowId,
        le_trans ((h.history.erase_sublist windowId).length_le) hlen⟩
    · exact ⟨hnd, hlen⟩
  | resetNavigation => exact ⟨hnd, hlen⟩
  | clear => exact ⟨List.nodup_nil, Nat.zero_le _⟩

lemma FocusHistory.foldl_inv (ops : List FHOp) (h : FocusHistory) (hinv : h.Inv) :
    (ops.foldl FocusHistory.applyOp h).Inv := by
  induction ops generalizing h with
  | nil => exact hinv
  | cons op rest ih => exact ih _ (h.applyOp_inv op hinv)

lemma FocusHistory.push_mem_eq (h : FocusHistory) (i : Int) (hinv : h.Inv)
    (hm : i ∈ h.history) : (h.push i).history = i :: h.history.erase i := by
  obtain ⟨hnd, hlen⟩ := hinv
  by_cases hhead : h.history.head? = some i
  · simp only [FocusHistory.push, if_pos hhead]
    cases hh : h.history with
    | nil => simp [hh] at hm
    | cons a t =>
      rw [hh] at hhead
      simp only [List.head?_cons, Option.some.injEq] at hhead
      subst hhead
      simp [hh, List.erase_cons_head]
  · have hblen : (h.history.erase i).length = h.history.length - 1 :=
      List.length_erase_of_mem hm
    have hpos : 0 < h.history.length := List.length_pos.mpr (by
      intro hnil; rw [hnil] at hm; simp at hm)
    have htrim : ¬ (h.maxSize < (i :: h.history.erase i).length) := by
      simp only [List.length_cons, hblen]
      omega
    simp only [FocusHistory.push, if_neg hhead, if_pos hm, if_neg htrim]

/-- C10: every sequence of `FocusHistory` operations (push, previous,
remove, reset_navigation, clear) preserves "no duplicate window ids and
at most `max_size` entries" (20 by default); pushing the id already at
the front is a no-op, and pushing an id present elsewhere moves it to
the front instead of adding a second copy. -/
theorem C10_focusHistory_invariant (h : FocusHistory) (op : FHOp)
    (ops : List FHOp) (i : Int) (hinv : h.Inv) :
    (h.applyOp op).Inv
    ∧ ((ops.foldl FocusHistory.applyOp FocusHistory.init).Inv
        ∧ FocusHistory.init.maxSize = 20)
    ∧ (h.history.head? = some i → h.push i = h)
    ∧ (i ∈ h.history → (h.push i).history = i :: h.history.erase i) := by
  refine ⟨h.applyOp_inv op hinv,
    ⟨FocusHistory.foldl_inv ops _ (by decide), rfl⟩, ?_, ?_⟩
  · intro hh
    simp only [FocusHistory.push, if_pos hh]
  · intro hm
    exact h.push_mem_eq i hinv hm

/-- Witness for C10 at a concrete history `[5, 3]`: pushing 3 (present,
not at the front) moves it to the front. -/
theorem C10_focusHistory_invariant_witness :
    (FocusHistory.mk 20 [5, 3] 0).Inv ∧
    ((FocusHistory.mk 20 [5, 3] 0).push 3).history =
      3 :: (FocusHistory.mk 20 [5, 3] 0).history.erase 3 :=
  ⟨by decide,
    (C10_focusHistory_invariant (FocusHistory.mk 20 [5, 3] 0) (FHOp.push 3)
      [] 3 (by decide)).2.2.2 (by decide)⟩

/-- C8: `moveWindowToIndex(w, i)` with `w` already at (valid) index `i`
issues zero physical commands and leaves `windowIds` (and everything
else) unchanged. -/
theorem C8_moveWindowToIndex_noop (s : MSState) (w : Con) (i : Nat)
    (hidx : s.windowIds.indexOf w.id = i) (hlt : i < s.windowIds.length) :
    s.moveWindowToIndex w (i : Int) = some (s, []) := by
  have hmem : w.id ∈ s.windowIds := by
    have hx : s.windowIds.indexOf w.id < s.windowIds.length := by
      rw [hidx]; exact hlt
    exact List.indexOf_lt_length.mp hx
  have hcond : 0 ≤ (i : Int) ∧ (i : Int) < (s.windowIds.length : Int) :=
    ⟨Int.ofNat_nonneg i, by exact_mod_cast hlt⟩
  unfold MSState.moveWindowToIndex
  rw [if_neg (not_not_intro hcond)]
  by_cases hlen : s.windowIds.length ≤ 1
  · rw [if_pos hlen]; rfl
  · rw [if_neg hlen]
    unfold MSState.getWindowListIndex
    rw [if_pos hmem, hidx]
    simp

/-- Witness for C8: window 200 sits at index 1 of `[100, 200, 300]`;
moving it to index 1 does nothing. -/
theorem C8_moveWindowToIndex_noop_witness :
    ({ msDefault with windowIds := [100, 200, 300] } : MSState).moveWindowToIndex
      (tile 200 500) (1 : Nat) =
      some ({ msDefault with windowIds := [100, 200, 300] }, []) :=
  C8_moveWindowToIndex_noop { msDefault with windowIds := [100, 200, 300] }
    (tile 200 500) 1 (by decide) (by decide)

/-- C5: removing the master while at least two tracked windows remain
moves the new master across and resizes it to the pixel width the
removed master's container last had (`window.rect.width`), not a width
re-derived from the `masterWidth` percentage — the full command trace is
exactly the move plus that one `px` resize. -/
theorem C5_master_removal_pixel_width (s : MSState) (w : Con) (b c : Int)
    (t : List Int) (hids : s.windowIds = w.id :: b :: c :: t)
    (hw : 0 < w.rectWidth) (hsub : s.substackExists = false) :
    s.popWindow w =
      some ({ s with windowIds := b :: c :: t },
        [conCmd b ("move " ++ (Side.opposite s.stackSide).str),
         conCmd b ("resize set width " ++ toString w.rectWidth ++ " px")]) := by
  have hmem : w.id ∈ s.windowIds := by
    rw [hids]; exact List.mem_cons_self _ _
  unfold MSState.popWindow MSState.getWindowListIndex
  rw [if_pos hmem, hids]
  simp only [List.indexOf_cons_self, Nat.cast_zero, List.erase_cons_head, hsub,
    List.length_cons, pyIndex, beq_self_eq_true, Bool.true_and, Bool.false_eq_true,
    if_false, decide_eq_true_eq]
  rw [if_pos (by omega : 2 ≤ t.length + 1 + 1)]
  simp only [le_refl, if_true, Int.toNat_zero, List.get?_cons_zero, Option.some_bind]
  simp only [Option.bind_eq_bind', Option.some_bind']
  rw [if_pos (by omega : 1 < t.length + 1 + 1), if_pos hw]
  rfl

/-- Witness for C5 — Scenario 3: `windowIds == [100, 200, 300]`, master
100 removed with last rect width 600; result `[200, 300]` plus a 600 px
resize of window 200. -/
theorem C5_master_removal_pixel_width_witness :
    ({ msDefault with windowIds := [100, 200, 300] } : MSState).popWindow
      (tile 100 600) =
      some ({ msDefault with windowIds := [200, 300] },
        ["[con_id=200] move left", "[con_id=200] resize set width 600 px"]) :=
  C5_master_removal_pixel_width { msDefault with windowIds := [100, 200, 300] }
    (tile 100 600) 200 300 [] rfl (by decide) rfl

lemma pyInsert_zero (l : List Int) (x : Int) : pyInsert l 0 x = x :: l := by
  simp [pyInsert]

lemma MSState.createSubstackIfNeeded_fst (s : MSState) :
    ∃ b, (s.createSubstackIfNeeded).1 = { s with substackExists := b } := by
  unfold MSState.createSubstackIfNeeded
  by_cases h : (s.shouldSubstackExist && !s.substackExists) = true
  · rw [if_pos h]
    cases hp : pyIndex s.windowIds s.visibleStackLimit with
    | none => exact ⟨s.substackExists, rfl⟩
    | some v => exact ⟨true, rfl⟩
  · rw [if_neg h]
    exact ⟨s.substackExists, rfl⟩

lemma MSState.createSubstackIfNeeded_windowIds (s : MSState) :
    (s.createSubstackIfNeeded).1.windowIds = s.windowIds := by
  obtain ⟨b, hb⟩ := s.createSubstackIfNeeded_fst
  rw [hb]

/-- On success, `pushWindow` always ends by inserting the new id at the
computed position; nothing else touches `windowIds`. -/
lemma pushWindow_windowIds (env : Env) (ws : WsTree) (s s' : MSState) (w : Con)
    (pa : Option Con) (tr : Trace)
    (h : MSState.pushWindow env ws s w pa = some (s', tr)) :
    s'.windowIds = pyInsert s.windowIds (pushPositionAtIndex ws s pa) w.id := by
  unfold MSState.pushWindow at h
  generalize hX : ({ s with windowIds := pyInsert s.windowIds (pushPositionAtIndex ws s pa) w.id } : MSState) = X at h
  cases hc : pushWindowCommands s w (pushPositionAtIndex ws s pa) with
  | none => rw [hc] at h; simp at h
  | some tr1 =>
    rw [hc] at h
    simp only [Option.bind_eq_bind', Option.some_bind'] at h
    cases hd : pushWindowDemote s (pushPositionAtIndex ws s pa) with
    | none => rw [hd] at h; simp at h
    | some tr2 =>
      rw [hd] at h
      simp only [Option.bind_eq_bind', Option.some_bind'] at h
      cases hf : pushWindowFinish env ws (X.createSubstackIfNeeded).1 with
      | none => rw [hf] at h; simp at h
      | some tr4 =>
        rw [hf] at h
        simp only [Option.bind_eq_bind', Option.some_bind', Option.some.injEq,
          Prod.mk.injEq] at h
        obtain ⟨rfl, -⟩ := h
        rw [MSState.createSubstackIfNeeded_windowIds, ← hX]

/-- C3 (amended): a non-floating window added through
`windowAdded`/`pushWindow` with no explicit `positionAfter` is inserted
*at* the remembered last-focused window's index (taking its place and
shifting it right — not at that index plus one) when that window is
remembered, found in the tree and tracked; in every other case (no
last-focused window, or it cannot be located) the new window is
inserted at index 0 and becomes the new master. -/
theorem C3_insertion_policy_amended (env : Env) (ws : WsTree) (s s' : MSState)
    (w : Con) (tr : Trace) (hfl : w.isFloating = false)
    (hrun : MSState.windowAdded env ws s w = some (s', tr)) :
    (s.lastFocusedWindowId = none → s'.windowIds = w.id :: s.windowIds)
    ∧ (∀ lf, s.lastFocusedWindowId = some lf → lf ≠ 0 → ws.findById lf = none →
        s'.windowIds = w.id :: s.windowIds)
    ∧ (∀ lf lw, s.lastFocusedWindowId = some lf → lf ≠ 0 →
        ws.findById lf = some lw → lw.id ∉ s.windowIds →
        s'.windowIds = w.id :: s.windowIds)
    ∧ (∀ lf lw, s.lastFocusedWindowId = some lf → lf ≠ 0 →
        ws.findById lf = some lw → lw.id ∈ s.windowIds →
        s'.windowIds =
          pyInsert s.windowIds ((s.windowIds.indexOf lw.id : Nat) : Int) w.id) := by
  have hpush : MSState.pushWindow env ws s w none = some (s', tr) := by
    rw [MSState.windowAdded] at hrun
    rwa [hfl] at hrun
  have hbase := pushWindow_windowIds env ws s s' w none tr hpush
  refine ⟨?_, ?_, ?_, ?_⟩
  · intro hnone
    rw [hbase]
    simp [pushPositionAtIndex, hnone, pyInsert_zero]
  · intro lf hlf hlf0 hfind
    rw [hbase]
    have hbeq : (lf == 0) = false := by simp [hlf0]
    simp [pushPositionAtIndex, hlf, hbeq, hfind, pyInsert_zero]
  · intro lf lw hlf hlf0 hfind hnm
    rw [hbase]
    have hbeq : (lf == 0) = false := by simp [hlf0]
    simp [pushPositionAtIndex, hlf, hbeq, hfind, MSState.getWindowListIndex,
      hnm, pyInsert_zero]
  · intro lf lw hlf hlf0 hfind hm
    rw [hbase]
    have hbeq : (lf == 0) = false := by simp [hlf0]
    simp [pushPositionAtIndex, hlf, hbeq, hfind, MSState.getWindowListIndex, hm]

/-- C3 counterexample, refuting the claimed `lastFocusedIndex + 1`
insertion point: `windowIds == [100, 300]`, last-focused window 300 is
remembered, present in the tree and tracked at index 1, yet adding
window 200 yields `[100, 200, 300]` — the new window sits at index 1,
not at index 2 as the claim requires. -/
theorem C3_counterexample :
    (MSState.windowAdded envEmpty wsA sA (tile 200 500)).map
        (fun p => p.1.windowIds) = some [100, 200, 300]
    ∧ sA.lastFocusedWindowId = some 300
    ∧ wsA.findById 300 = some (tile 300 500)
    ∧ sA.windowIds.indexOf 300 = 1
    ∧ [100, 200, 300].indexOf 200 ≠ sA.windowIds.indexOf 300 + 1 := by
  exact ⟨by decide, rfl, by decide, by decide, by decide⟩

/-- Witness for C3 (amended) at the same concrete input: the new window
lands exactly at `pyInsert` position `indexOf 300 = 1`. -/
theorem C3_insertion_policy_amended_witness :
    ({ msDefault with windowIds := [100, 200, 300], lastFocusedWindowId := some 300 } : MSState).windowIds =
      pyInsert sA.windowIds ((sA.windowIds.indexOf 300 : Nat) : Int) 200 :=
  (C3_insertion_policy_amended envEmpty wsA sA
      { msDefault with windowIds := [100, 200, 300], lastFocusedWindowId := some 300 }
      (tile 200 500)
      ["[con_id=300] mark --add move_target",
       "[con_id=200] move window to mark move_target",
       "[con_id=300] unmark move_target",
       "[con_id=200] swap container with con_id 300"]
      rfl (by decide)).2.2.2 300 (tile 300 500) rfl (by decide) (by decide)
      (by decide)

lemma pyIndex_zero (l : List Int) : pyIndex l 0 = l.head? := by
  cases l <;> simp [pyIndex]

lemma MSState.destroySubstackIfExists_fst (s s' : MSState) (tr : Trace)
    (h : s.destroySubstackIfExists = some (s', tr)) :
    ∃ b, s' = { s with substackExists := b } := by
  unfold MSState.destroySubstackIfExists at h
  by_cases hs : s.substackExists = true
  · rw [if_pos hs] at h
    cases hp : pyIndex s.windowIds (s.visibleStackLimit - 1) with
    | none => rw [hp] at h; simp at h
    | some v =>
      rw [hp] at h
      simp only [Option.bind_eq_bind', Option.some_bind', Option.pure_def,
        Option.some.injEq, Prod.mk.injEq] at h
      obtain ⟨rfl, -⟩ := h
      exact ⟨false, rfl⟩
  · rw [if_neg hs] at h
    simp only [Option.pure_def, Option.some.injEq, Prod.mk.injEq] at h
    obtain ⟨rfl, -⟩ := h
    exact ⟨s.substackExists, rfl⟩

/-- C6 (amended): starting from a *non-maximized* state with at least
two tracked windows, two successive `toggleMaximize` calls round-trip:
afterwards `maximized == false`, the first call remembered the master's
pixel width from the fresh tree, and the second call issued a resize
re-applying exactly that remembered width. -/
theorem C6_toggleMaximize_roundtrip_amended (ws ws2 : WsTree)
    (s s1 s2 : MSState) (tr1 tr2 : Trace) (w0 : Int) (m : Con)
    (hmax : s.maximized = false)
    (h1 : MSState.toggleMaximize ws s = some (s1, tr1))
    (h2 : MSState.toggleMaximize ws2 s1 = some (s2, tr2))
    (hlen : 2 ≤ s.windowIds.length)
    (hw0 : s.windowIds.head? = some w0)
    (hm : ws.findById w0 = some m) :
    s2.maximized = false
    ∧ s1.masterWidthBeforeMaximize = m.rectWidth
    ∧ conCmd w0 ("resize set width " ++ toString m.rectWidth ++ " px") ∈ tr2 := by
  have hpy0 : pyIndex s.windowIds 0 = some w0 := by rw [pyIndex_zero, hw0]
  -- first call: the maximizing branch
  unfold MSState.toggleMaximize at h1
  have hcondmax : (!s.maximized) = true := by rw [hmax]; rfl
  rw [if_pos hlen, if_pos hcondmax] at h1
  simp only [hpy0, hm, Option.bind_eq_bind', Option.some_bind'] at h1
  cases hd : MSState.destroySubstackIfExists
      { s with masterWidthBeforeMaximize := m.rectWidth } with
  | none => rw [hd] at h1; simp at h1
  | some p =>
    obtain ⟨sd, trd⟩ := p
    rw [hd] at h1
    simp only [Option.bind_eq_bind', Option.some_bind'] at h1
    obtain ⟨b, hb⟩ := MSState.destroySubstackIfExists_fst _ _ _ hd
    have hsdIds : sd.windowIds = s.windowIds := by rw [hb]
    have hsdW : sd.masterWidthBeforeMaximize = m.rectWidth := by rw [hb]
    have hsdMax : sd.maximized = s.maximized := by rw [hb]
    have hpy0d : pyIndex sd.windowIds 0 = some w0 := by rw [hsdIds, hpy0]
    have hlen1 : 1 < s.windowIds.length := by omega
    obtain ⟨w1, hw1⟩ : ∃ w1, s.windowIds[1]? = some w1 :=
      ⟨s.windowIds[1], List.getElem?_eq_getElem hlen1⟩
    have hpy1d : pyIndex sd.windowIds 1 = some w1 := by
      rw [hsdIds]
      simp [pyIndex, hw1]
    rw [hpy0d, hpy1d] at h1
    simp only [Option.bind_eq_bind', Option.some_bind', Option.pure_def,
      Option.some.injEq, Prod.mk.injEq] at h1
    obtain ⟨hs1, -⟩ := h1
    have hs1max : s1.maximized = true := by
      rw [← hs1, hsdMax, hmax]; rfl
    have hs1w : s1.masterWidthBeforeMaximize = m.rectWidth := by
      rw [← hs1]; exact hsdW
    have hs1ids : s1.windowIds = s.windowIds := by
      rw [← hs1]; exact hsdIds
    -- second call: the unmaximizing branch
    unfold MSState.toggleMaximize at h2
    have hcond2 : ¬ ((!s1.maximized) = true) := by rw [hs1max]; simp
    rw [if_pos (by rw [hs1ids]; exact hlen), if_neg hcond2] at h2
    have hpy0s1 : pyIndex s1.windowIds 0 = some w0 := by rw [hs1ids, hpy0]
    simp only [hpy0s1, Option.bind_eq_bind', Option.some_bind', Option.pure_def,
      Option.some.injEq, Prod.mk.injEq] at h2
    obtain ⟨hs2, htr2⟩ := h2
    obtain ⟨bc, hbc⟩ := s1.createSubstackIfNeeded_fst
    refine ⟨?_, hs1w, ?_⟩
    · rw [← hs2]
      have hcm : s1.createSubstackIfNeeded.1.maximized = true := by
        rw [hbc]; exact hs1max
      simp [hcm]
    · rw [← htr2]
      have hcw : (s1.createSubstackIfNeeded).1.masterWidthBeforeMaximize =
          m.rectWidth := by rw [hbc]; exact hs1w
      rw [hcw]
      simp

/-- C6 counterexample, refuting "for every master/stack state ...
afterwards `maximized == false`": starting from a state already
maximized, two successive `toggleMaximize` calls end with
`maximized == true`. -/
theorem C6_counterexample :
    ((MSState.toggleMaximize wsB { msDefault with maximized := true }).bind
        (fun p => MSState.toggleMaximize wsB p.1)).map (fun p => p.1.maximized) =
      some true
    ∧ (true : Bool) ≠ false := by
  exact ⟨by decide, by decide⟩

/-- Witness for C6 (amended) at `windowIds == [100, 200]` with the
master 640 pixels wide in the snapshot. -/
theorem C6_toggleMaximize_roundtrip_amended_witness :
    ({ msDefault with windowIds := [100, 200], masterWidthBeforeMaximize := 640 } : MSState).maximized = false
    ∧ ({ msDefault with windowIds := [100, 200], masterWidthBeforeMaximize := 640, maximized := true } : MSState).masterWidthBeforeMaximize = (tile 100 640).rectWidth
    ∧ conCmd 100 ("resize set width " ++ toString (tile 100 640).rectWidth ++ " px") ∈
        ["[con_id=100] layout splitv", "[con_id=100] move left",
         "[con_id=100] resize set width 640 px", "[con_id=200] layout splitv"] :=
  C6_toggleMaximize_roundtrip_amended wsB wsB
    { msDefault with windowIds := [100, 200] }
    { msDefault with windowIds := [100, 200], masterWidthBeforeMaximize := 640, maximized := true }
    { msDefault with windowIds := [100, 200], masterWidthBeforeMaximize := 640 }
    ["[con_id=200] mark --add move_target",
     "[con_id=100] move window to mark move_target",
     "[con_id=200] unmark move_target",
     "[con_id=100] swap container with con_id 200",
     "[con_id=100] layout tabbed"]
    ["[con_id=100] layout splitv", "[con_id=100] move left",
     "[con_id=100] resize set width 640 px", "[con_id=200] layout splitv"]
    100 (tile 100 640) rfl (by decide) (by decide) (by decide) rfl (by decide)

lemma except_bind_ok {ε α β : Type} {e : Except ε α}
    {f : α → Except ε β} {b : β} (h : (e >>= f) = .ok b) :
    ∃ a, e = .ok a ∧ f a = .ok b := by
  cases e with
  | error err => simp [Bind.bind, Except.bind] at h
  | ok a => exact ⟨a, rfl, by simpa [Bind.bind, Except.bind] using h⟩

lemma except_ok_bind {ε α β : Type} (a : α) (f : α → Except ε β) :
    ((Except.ok a : Except ε α) >>= f) = f a := rfl

lemma msParseMasterWidth_ok (v : PyVal) (n : Int)
    (h : msParseMasterWidth (some v) = .ok n) : validMasterWidthVal v := by
  cases v with
  | int k =>
    by_cases hk : 0 < k ∧ k < 100
    · exact hk
    · simp [msParseMasterWidth, hk, throw, throwThe, MonadExceptOf.throw] at h
  | float q =>
    by_cases hq : 0 < q ∧ q < 100
    · exact hq
    · simp [msParseMasterWidth, hq, throw, throwThe, MonadExceptOf.throw] at h
  | str s => simp [msParseMasterWidth, throw, throwThe, MonadExceptOf.throw] at h
  | other => simp [msParseMasterWidth, throw, throwThe, MonadExceptOf.throw] at h

lemma msParseVisibleStackLimit_ok (v : PyVal) (n : Int)
    (h : msParseVisibleStackLimit (some v) = .ok n) :
    validVisibleStackLimitVal v := by
  cases v with
  | int k =>
    by_cases hk : 0 ≤ k
    · exact hk
    · simp [msParseVisibleStackLimit, hk, throw, throwThe, MonadExceptOf.throw] at h
  | float q =>
    simp [msParseVisibleStackLimit, throw, throwThe, MonadExceptOf.throw] at h
  | str s =>
    simp [msParseVisibleStackLimit, throw, throwThe, MonadExceptOf.throw] at h
  | other =>
    simp [msParseVisibleStackLimit, throw, throwThe, MonadExceptOf.throw] at h

lemma msParseMasterCount_ok (v : PyVal) (n : Int)
    (h : msParseMasterCount (some v) = .ok n) : validMasterCountVal v := by
  cases v with
  | int k =>
    by_cases hk : 1 ≤ k
    · exact hk
    · simp [msParseMasterCount, hk, throw, throwThe, MonadExceptOf.throw] at h
  | float q => simp [msParseMasterCount, throw, throwThe, MonadExceptOf.throw] at h
  | str s => simp [msParseMasterCount, throw, throwThe, MonadExceptOf.throw] at h
  | other => simp [msParseMasterCount, throw, throwThe, MonadExceptOf.throw] at h

lemma getEnumOption_ok {α : Type} (lookup : String → Option α) (key : String)
    (v : PyVal) (o : Option α)
    (h : getEnumOption lookup key (some v) = .ok o) : validEnumVal lookup v := by
  cases v with
  | str s =>
    cases hl : lookup s.toUpper with
    | none => simp [getEnumOption, hl] at h
    | some e => simp [validEnumVal, hl]
  | int k => simp [getEnumOption] at h
  | float q => simp [getEnumOption] at h
  | other => simp [getEnumOption] at h

/-- Construction succeeding means every supplied knob value passed its
validation. -/
lemma msInit_ok_valid (opts : MSOptions) (m : MSState)
    (h : MasterStackLayoutManager.init opts = .ok m) :
    (∀ v, opts.masterWidth = some v → validMasterWidthVal v)
    ∧ (∀ v, opts.stackSide = some v → validEnumVal sideOfName v)
    ∧ (∀ v, opts.stackLayout = some v → validEnumVal stackLayoutOfName v)
    ∧ (∀ v, opts.visibleStackLimit = some v → validVisibleStackLimitVal v)
    ∧ (∀ v, opts.masterCount = some v → validMasterCountVal v) := by
  unfold MasterStackLayoutManager.init at h
  obtain ⟨mw, hmw, h⟩ := except_bind_ok h
  obtain ⟨so, hso, h⟩ := except_bind_ok h
  obtain ⟨lo, hlo, h⟩ := except_bind_ok h
  obtain ⟨vsl, hvsl, h⟩ := except_bind_ok h
  obtain ⟨mc, hmc, h⟩ := except_bind_ok h
  refine ⟨?_, ?_, ?_, ?_, ?_⟩
  · intro v hv; rw [hv] at hmw; exact msParseMasterWidth_ok v mw hmw
  · intro v hv; rw [hv] at hso; exact getEnumOption_ok sideOfName _ v so hso
  · intro v hv; rw [hv] at hlo; exact getEnumOption_ok stackLayoutOfName _ v lo hlo
  · intro v hv; rw [hv] at hvsl; exact msParseVisibleStackLimit_ok v vsl hvsl
  · intro v hv; rw [hv] at hmc; exact msParseMasterCount_ok v mc hmc

/-- C7 (amended): invalid configuration surfaces as `ConfigError`: on a
*non-excluded* workspace, `setWorkspaceLayout` with a name that is
neither native nor registered raises `ConfigError`; and
`MasterStackLayoutManager` construction raises `ConfigError` whenever
`masterWidth` is not a number strictly between 0 and 100,
`visibleStackLimit` is not a non-negative integer, `masterCount` is not
an integer at least 1, or `stackSide`/`stackLayout` name an unknown enum
value.  (On an excluded workspace `setWorkspaceLayout` instead returns
after logging an error, without raising — see the counterexample.) -/
theorem C7_config_errors_amended (lay : Layman) (ws : Option WsTree)
    (wsName name : String) (st : WorkspaceState) (opts : MSOptions)
    (hst : lay.lookupState wsName = some st) (hexc : st.isExcluded = false)
    (hname : name ≠ "") (hnat : name ∉ nativeLayoutNames)
    (hbi : name ∉ lay.builtinLayouts) (hus : name ∉ lay.userLayouts) :
    (∃ e, lay.setWorkspaceLayout ws wsName (some name) = .error (.configErr e))
    ∧ (∀ v, opts.masterWidth = some v → ¬ validMasterWidthVal v →
        ∃ e, MasterStackLayoutManager.init opts = .error e)
    ∧ (∀ v, opts.stackSide = some v → ¬ validEnumVal sideOfName v →
        ∃ e, MasterStackLayoutManager.init opts = .error e)
    ∧ (∀ v, opts.stackLayout = some v → ¬ validEnumVal stackLayoutOfName v →
        ∃ e, MasterStackLayoutManager.init opts = .error e)
    ∧ (∀ v, opts.visibleStackLimit = some v → ¬ validVisibleStackLimitVal v →
        ∃ e, MasterStackLayoutManager.init opts = .error e)
    ∧ (∀ v, opts.masterCount = some v → ¬ validMasterCountVal v →
        ∃ e, MasterStackLayoutManager.init opts = .error e) := by
  have hinit : ∀ (P : (∀ v, opts.masterWidth = some v → validMasterWidthVal v)
        ∧ (∀ v, opts.stackSide = some v → validEnumVal sideOfName v)
        ∧ (∀ v, opts.stackLayout = some v → validEnumVal stackLayoutOfName v)
        ∧ (∀ v, opts.visibleStackLimit = some v → validVisibleStackLimitVal v)
        ∧ (∀ v, opts.masterCount = some v → validMasterCountVal v) → False),
      ∃ e, MasterStackLayoutManager.init opts = .error e := by
    intro P
    cases hres : MasterStackLayoutManager.init opts with
    | error e => exact ⟨e, rfl⟩
    | ok m => exact absurd (msInit_ok_valid opts m hres) (fun hv => P hv)
  refine ⟨?_, ?_, ?_, ?_, ?_, ?_⟩
  · refine ⟨⟨"Unknown layout '" ++ name ++ "' for workspace " ++ wsName ++
      ". Available layouts listed."⟩, ?_⟩
    unfold Layman.setWorkspaceLayout
    simp only [hst]
    have hres : resolveLayoutName st (some name) =
        .ok ({ st with layoutName := name }, name) := by
      unfold resolveLayoutName
      simp only [Option.getD_some]
      rw [if_neg hname]
      rfl
    rw [hres, except_ok_bind]
    dsimp only
    have hexcite : ¬ (({ st with layoutName := name } : WorkspaceState).isExcluded = true) := by
      simp [hexc]
    rw [if_neg hexcite, if_neg hnat]
    have hfound : (lay.updateState wsName { st with layoutName := name }).getLayoutByShortName name = none := by
      unfold Layman.getLayoutByShortName
      simp only [Layman.updateState]
      rw [if_neg hbi, if_neg hus]
    rw [hfound]
    rfl
  · intro v hv hbad
    exact hinit (fun hall => hbad (hall.1 v hv))
  · intro v hv hbad
    exact hinit (fun hall => hbad (hall.2.1 v hv))
  · intro v hv hbad
    exact hinit (fun hall => hbad (hall.2.2.1 v hv))
  · intro v hv hbad
    exact hinit (fun hall => hbad (hall.2.2.2.1 v hv))
  · intro v hv hbad
    exact hinit (fun hall => hbad (hall.2.2.2.2 v hv))

/-- C7 counterexample: on an *excluded* workspace, `setWorkspaceLayout`
with the unknown layout name "Bogus" does not raise `ConfigError` — it
returns normally after logging an error (the exclusion check fires
before the unknown-name check). -/
theorem C7_counterexample :
    (layExcluded.setWorkspaceLayout none "9" (some "Bogus")).isOk = true
    ∧ "Bogus" ∉ nativeLayoutNames
    ∧ "Bogus" ∉ layExcluded.builtinLayouts
    ∧ "Bogus" ∉ layExcluded.userLayouts
    ∧ (layExcluded.lookupState "9").map (fun s => s.isExcluded) = some true := by
  exact ⟨by decide, by decide, by decide, by decide, by decide⟩

/-- Witness for C7 (amended): a non-excluded workspace with the unknown
name "Bogus" raises `ConfigError`, and so does constructing the
master/stack manager with `masterWidth = "wide"`. -/
theorem C7_config_errors_amended_witness :
    (∃ e, layFresh.setWorkspaceLayout none "1" (some "Bogus") =
      .error (.configErr e))
    ∧ (∃ e, MasterStackLayoutManager.init
        { masterWidth := some (PyVal.str "wide") } = .error e) :=
  ⟨(C7_config_errors_amended layFresh none "1" "Bogus" {}
      { masterWidth := some (PyVal.str "wide") } (by decide) rfl (by decide)
      (by decide) (by decide) (by decide)).1,
   (C7_config_errors_amended layFresh none "1" "Bogus" {}
      { masterWidth := some (PyVal.str "wide") } (by decide) rfl (by decide)
      (by decide) (by decide) (by decide)).2.1 (PyVal.str "wide") rfl
      (fun hx => hx)⟩

/-- C4 (amended): on a *non-excluded* workspace, a focus event whose
window is no longer the focused window in the fresh snapshot (or whose
workspace has no focused window) makes `windowFocused` log exactly the
stale-event warning and return with the orchestrator state untouched: no
focus-history push, no layout-manager call.  (On an excluded workspace
the handler returns even earlier, also without mutating, but without the
warning — see the counterexample.) -/
theorem C4_stale_focus_amended (lay : Layman) (mgrRaises : Bool) (eventId : Int)
    (ws : WsTree) (win : Con) (st : WorkspaceState)
    (hst : lay.lookupState ws.name = some st) (hexc : st.isExcluded = false)
    (hstale : ws.findFocused = none ∨
      ∃ f, ws.findFocused = some f ∧ eventId ≠ f.id) :
    ∃ cur, lay.windowFocused mgrRaises eventId (some ws) (some win) =
      .ok (lay, [.warnStale eventId cur]) := by
  unfold Layman.windowFocused
  simp only [hst]
  rw [if_neg (by simp [hexc] :
    ¬ (st.isExcluded = true))]
  rcases hstale with hnone | ⟨f, hf, hne⟩
  · refine ⟨none, ?_⟩
    simp only [hnone]
    rfl
  · refine ⟨some f.id, ?_⟩
    simp only [hf]
    rw [if_pos hne]
    rfl

/-- C4 counterexample: a stale focus event (event window 100, snapshot
focus 200) on an *excluded* workspace returns without logging any
stale-event warning — only the "Workspace excluded" debug record. -/
theorem C4_counterexample :
    layExcludedFocus.windowFocused false 100 (some wsFocus200)
        (some (tile 100 500)) =
      .ok (layExcludedFocus, [Effect.logDebug "Workspace excluded"])
    ∧ wsFocus200.findFocused = some (tile 200 500)
    ∧ (100 : Int) ≠ 200
    ∧ [Effect.logDebug "Workspace excluded"].countP
        (fun e => match e with | Effect.warnStale _ _ => true | _ => false) = 0 := by
  exact ⟨rfl, by decide, by decide, by decide⟩

/-- Witness for C4 (amended): workspace "1" is not excluded, the
snapshot focus is window 200, and the handler answers the stale event
for window 100 with exactly the warning. -/
theorem C4_stale_focus_amended_witness :
    ∃ cur, layFresh.windowFocused false 100 (some wsStale)
        (some (tile 100 500)) =
      .ok (layFresh, [Effect.warnStale 100 cur]) :=
  C4_stale_focus_amended layFresh false 100 wsStale (tile 100 500) {}
    (by decide) rfl (Or.inr ⟨tile 200 500, by decide, by decide⟩)

lemma find_map_update (l : List (String × WorkspaceState)) (n : String)
    (st : WorkspaceState) (h : (l.find? (fun p => p.1 == n)).isSome = true) :
    (l.map (fun p => if p.1 == n then (p.1, st) else p)).find?
      (fun p => p.1 == n) = some (n, st) := by
  induction l with
  | nil => simp at h
  | cons p rest ih =>
    by_cases hp : (p.1 == n) = true
    · have hpn : p.1 = n := by simpa using hp
      simp [List.find?_cons, hp, hpn]
    · have h' : (rest.find? (fun p => p.1 == n)).isSome = true := by
        rw [List.find?_cons_of_neg _ (by simpa using hp)] at h
        exact h
      simp only [List.map_cons, if_neg hp]
      rw [List.find?_cons_of_neg _ (by simpa using hp)]
      exact ih h'

lemma Layman.lookupState_updateState_self (lay : Layman) (n : String)
    (st : WorkspaceState) (h : (lay.lookupState n).isSome = true) :
    (lay.updateState n st).lookupState n = some st := by
  have h2 : (lay.workspaceStates.find? (fun p => p.1 == n)).isSome = true := by
    unfold Layman.lookupState at h
    cases hf : lay.workspaceStates.find? (fun p => p.1 == n) with
    | none => rw [hf] at h; simp at h
    | some q => rfl
  unfold Layman.lookupState Layman.updateState
  dsimp only
  rw [find_map_update _ _ _ h2]
  rfl

lemma WorkspaceState.update_layoutManager_self (st : WorkspaceState) (nm : String)
    (h1 : st.layoutManager = some nm) (h2 : st.layoutName = nm) :
    ({ st with layoutManager := some nm, layoutName := nm } : WorkspaceState) = st := by
  cases st
  simp_all

/-- C2: a guarded layout-manager delegation never lets an exception
escape.  If the body completes, nothing else happens; if it raises
(whatever it produced before raising), the guard's next effects are the
two log records followed by exactly one `setWorkspaceLayout(workspace,
workspaceName)` call with *no* explicit layout name, which re-instantiates
the very algorithm recorded in `WorkspaceState.layoutName` from scratch,
leaving the workspace's manager set to that same algorithm. -/
theorem C2_failure_recovery (lay : Layman) (ws0 : Option WsTree)
    (wsName : String) (st : WorkspaceState) (nm : String)
    (preEffs : List Effect)
    (hst : lay.lookupState wsName = some st)
    (hmgr : st.layoutManager = some nm) (hname : st.layoutName = nm)
    (hexc : st.isExcluded = false)
    (hnm : nm ≠ "") (hwn : wsName ≠ "")
    (hnat : nm ∉ nativeLayoutNames)
    (hreg : nm ∈ lay.builtinLayouts ∨ nm ∈ lay.userLayouts)
    (hpre : preEffs.countP Effect.isCallSetLayout = 0) :
    layoutManagerReloader lay ws0 (some wsName) (.ok preEffs) = .ok (lay, preEffs)
    ∧ ∃ lay₂,
      layoutManagerReloader lay ws0 (some wsName) (.raised preEffs) =
        .ok (lay₂, preEffs ++
          [Effect.logException,
           Effect.logDebug "Reloading layout manager after exception",
           Effect.callSetLayout wsName none, Effect.instantiate nm wsName,
           Effect.logDebug "Initialized workspace"])
      ∧ lay₂.lookupState wsName = some st
      ∧ (preEffs ++
          [Effect.logException,
           Effect.logDebug "Reloading layout manager after exception",
           Effect.callSetLayout wsName none, Effect.instantiate nm wsName,
           Effect.logDebug "Initialized workspace"]).countP Effect.isCallSetLayout
          = 1 := by
  have hwn' : ¬ ((some wsName).getD "" = "") := by simpa using hwn
  have hsw : lay.setWorkspaceLayout ws0 wsName none =
      .ok ((lay.updateState wsName st).updateState wsName st,
        [.instantiate nm wsName, .logDebug "Initialized workspace"]) := by
    unfold Layman.setWorkspaceLayout
    simp only [hst]
    have hln : ¬ (st.layoutName = "") := by rw [hname]; exact hnm
    have hresv : resolveLayoutName st none = .ok (st, st.layoutName) := by
      unfold resolveLayoutName
      rw [if_pos (by rfl : (((none : Option String)).getD "") = "")]
      rw [if_neg hln]
      rfl
    rw [hresv, except_ok_bind]
    dsimp only
    simp only [hname]
    rw [if_neg (by simp [hexc] : ¬ (st.isExcluded = true)), if_neg hnat]
    have hfind : (lay.updateState wsName st).getLayoutByShortName nm = some nm := by
      unfold Layman.getLayoutByShortName
      simp only [Layman.updateState]
      by_cases hb : nm ∈ lay.builtinLayouts
      · rw [if_pos hb]
      · rw [if_neg hb, if_pos (hreg.resolve_left hb)]
    simp only [hfind]
    rw [WorkspaceState.update_layoutManager_self st nm hmgr hname]
    rfl
  constructor
  · unfold layoutManagerReloader resolveWsName
    rw [if_neg hwn']
    simp only [Option.getD_some, pure_bind]
    rw [if_neg hwn]
    rfl
  · refine ⟨(lay.updateState wsName st).updateState wsName st, ?_, ?_, ?_⟩
    · unfold layoutManagerReloader resolveWsName
      rw [if_neg hwn']
      simp only [Option.getD_some, pure_bind]
      rw [if_neg hwn]
      rw [hsw]
      simp [List.append_assoc]
    · have h1 : (lay.updateState wsName st).lookupState wsName = some st :=
        lay.lookupState_updateState_self wsName st (by rw [hst]; rfl)
      exact (lay.updateState wsName st).lookupState_updateState_self wsName st
        (by rw [h1]; rfl)
    · simp [List.countP_append, hpre, List.countP_cons, Effect.isCallSetLayout]

/-- Witness for C2 on workspace "3" with an active MasterStack manager:
a raising `windowAdded` delegation is followed by exactly one
no-explicit-name `setWorkspaceLayout` call that re-instantiates
MasterStack. -/
theorem C2_failure_recovery_witness :
    layoutManagerReloader layMS none (some "3")
        (LMOutcome.ok [Effect.managerCall "windowAdded" "MasterStack" "3" [100, 200]]) =
      .ok (layMS, [Effect.managerCall "windowAdded" "MasterStack" "3" [100, 200]])
    ∧ ∃ lay₂,
      layoutManagerReloader layMS none (some "3")
          (LMOutcome.raised
            [Effect.managerCall "windowAdded" "MasterStack" "3" [100, 200]]) =
        .ok (lay₂,
          [Effect.managerCall "windowAdded" "MasterStack" "3" [100, 200]] ++
          [Effect.logException,
           Effect.logDebug "Reloading layout manager after exception",
           Effect.callSetLayout "3" none, Effect.instantiate "MasterStack" "3",
           Effect.logDebug "Initialized workspace"])
      ∧ lay₂.lookupState "3" =
          some { layoutManager := some "MasterStack",
                 layoutName := "MasterStack", windowIds := [100, 200] }
      ∧ ([Effect.managerCall "windowAdded" "MasterStack" "3" [100, 200]] ++
          [Effect.logException,
           Effect.logDebug "Reloading layout manager after exception",
           Effect.callSetLayout "3" none, Effect.instantiate "MasterStack" "3",
           Effect.logDebug "Initialized workspace"]).countP
            Effect.isCallSetLayout = 1 :=
  C2_failure_recovery layMS none "3"
    { layoutManager := some "MasterStack", layoutName := "MasterStack",
      windowIds := [100, 200] }
    "MasterStack"
    [Effect.managerCall "windowAdded" "MasterStack" "3" [100, 200]]
    (by decide) rfl rfl rfl (by decide) (by decide) (by decide)
    (Or.inl (by decide)) (by decide)

lemma except_pure_ok {ε α : Type} {x y : α}
    (h : (pure x : Except ε α) = .ok y) : x = y := Except.ok.inj h

lemma except_throw_ne_ok {ε α : Type} {e : ε} {y : α} :
    (throw e : Except ε α) ≠ .ok y := by
  simp [throw, throwThe, MonadExceptOf.throw]

lemma find_cons_true {α : Type} (p : α → Bool) (a : α) (l : List α)
    (h : p a = true) : (a :: l).find? p = some a := by
  rw [List.find?_cons, h]

lemma find_cons_false {α : Type} (p : α → Bool) (a : α) (l : List α)
    (h : p a = false) : (a :: l).find? p = l.find? p := by
  rw [List.find?_cons, h]

lemma find_map_update_gen (l : List (String × WorkspaceState)) (n m : String)
    (st : WorkspaceState) :
    (l.map (fun p => if p.1 == n then (p.1, st) else p)).find?
        (fun p => p.1 == m) =
      if m = n then (l.find? (fun p => p.1 == m)).map (fun p => (p.1, st))
      else l.find? (fun p => p.1 == m) := by
  induction l with
  | nil => by_cases h : m = n <;> simp [h]
  | cons p rest ih =>
    rw [List.map_cons]
    by_cases hmn : m = n
    · subst hmn
      rw [if_pos rfl] at ih ⊢
      by_cases hpm : (p.1 == m) = true
      · rw [if_pos hpm]
        rw [find_cons_true (fun q => q.1 == m) (p.1, st) _ hpm]
        rw [find_cons_true (fun q => q.1 == m) p _ hpm]
        rfl
      · have hpm2 : (p.1 == m) = false := by simpa using hpm
        rw [if_neg hpm]
        rw [find_cons_false (fun q => q.1 == m) p _ hpm2]
        rw [find_cons_false (fun q => q.1 == m) p _ hpm2]
        exact ih
    · rw [if_neg hmn] at ih ⊢
      by_cases hpn : (p.1 == n) = true
      · have h1 : p.1 = n := by simpa using hpn
        have hpm2 : (p.1 == m) = false := by
          rw [h1]
          simp only [beq_eq_false_iff_ne]
          exact fun hc => hmn hc.symm
        rw [if_pos hpn]
        rw [find_cons_false (fun q => q.1 == m) (p.1, st) _ hpm2]
        rw [find_cons_false (fun q => q.1 == m) p _ hpm2]
        exact ih
      · rw [if_neg hpn]
        by_cases hpm : (p.1 == m) = true
        · rw [find_cons_true (fun q => q.1 == m) p _ hpm]
          rw [find_cons_true (fun q => q.1 == m) p _ hpm]
        · have hpm2 : (p.1 == m) = false := by simpa using hpm
          rw [find_cons_false (fun q => q.1 == m) p _ hpm2]
          rw [find_cons_false (fun q => q.1 == m) p _ hpm2]
          exact ih

lemma Layman.lookupState_updateState (lay : Layman) (n m : String)
    (st : WorkspaceState) :
    (lay.updateState n st).lookupState m =
      if m = n then (lay.lookupState m).map (fun _ => st)
      else lay.lookupState m := by
  unfold Layman.lookupState Layman.updateState
  dsimp only
  rw [find_map_update_gen]
  by_cases hmn : m = n
  · rw [if_pos hmn, if_pos hmn]
    cases lay.workspaceStates.find? (fun p => p.1 == m) <;> simp
  · rw [if_neg hmn, if_neg hmn]

lemma Layman.preserve_one (lay : Layman) (n : String) (st' : WorkspaceState)
    (hw : (lay.lookupState n).map (fun s => s.windowIds) = some st'.windowIds) :
    ∀ m, ((lay.updateState n st').lookupState m).map (fun s => s.windowIds) =
      (lay.lookupState m).map (fun s => s.windowIds) := by
  intro m
  rw [Layman.lookupState_updateState]
  by_cases hmn : m = n
  · rw [if_pos hmn, hmn]
    cases hl : lay.lookupState n with
    | none => rw [hl] at hw; simp at hw
    | some q =>
      rw [hl] at hw
      simp only [Option.map_some'] at hw ⊢
      simpa using hw.symm
  · rw [if_neg hmn]

lemma resolveLayoutName_ok_spec (st : WorkspaceState) (nmArg : Option String)
    (r : WorkspaceState × String) (h : resolveLayoutName st nmArg = .ok r) :
    r.1.windowIds = st.windowIds ∧ r.1.isExcluded = st.isExcluded := by
  unfold resolveLayoutName at h
  by_cases hz : (nmArg.getD "") = ""
  · rw [if_pos hz] at h
    by_cases hln : st.layoutName = ""
    · rw [if_pos hln] at h
      exact absurd h except_throw_ne_ok
    · rw [if_neg hln] at h
      rw [← except_pure_ok h]
      exact ⟨rfl, rfl⟩
  · rw [if_neg hz] at h
    rw [← except_pure_ok h]
    exact ⟨rfl, rfl⟩

lemma setWorkspaceLayoutCommand_no_mgr (lay : Layman) (ws : WsTree)
    (effs : List Effect) (h : lay.setWorkspaceLayoutCommand ws = .ok effs) :
    ∀ e ∈ effs, e.isManagerCall = false := by
  unfold Layman.setWorkspaceLayoutCommand at h
  cases hl : lay.lookupState ws.name with
  | none =>
    simp only [hl] at h
    exact absurd h except_throw_ne_ok
  | some st =>
    simp only [hl] at h
    by_cases h1 : st.windowIds.length ≠ 1
    · rw [if_pos h1] at h
      rw [← except_pure_ok h]
      intro e he
      simp only [List.mem_singleton] at he
      rw [he]; rfl
    · rw [if_neg h1] at h
      by_cases h2 : (st.layoutName ≠ "" && st.layoutManager == none) = true
      · rw [if_pos h2] at h
        cases hh : st.windowIds.head? with
        | some first =>
          simp only [hh] at h
          rw [← except_pure_ok h]
          intro e he
          simp only [List.mem_cons, List.not_mem_nil, or_false] at he
          rcases he with he | he <;> (rw [he]; rfl)
        | none =>
          simp only [hh] at h
          exact absurd h except_throw_ne_ok
      · rw [if_neg h2] at h
        by_cases h3 : st.layoutName = ""
        · rw [if_pos h3] at h
          exact absurd h except_throw_ne_ok
        · rw [if_neg h3] at h
          rw [← except_pure_ok h]
          intro e he
          simp only [List.mem_singleton] at he
          rw [he]; rfl

lemma setWorkspaceLayout_ok_spec (lay : Layman) (ws0 : Option WsTree)
    (wsName : String) (nmArg : Option String) (res : Layman × List Effect)
    (h : lay.setWorkspaceLayout ws0 wsName nmArg = .ok res) :
    (∀ m, (res.1.lookupState m).map (fun s => s.windowIds) =
      (lay.lookupState m).map (fun s => s.windowIds))
    ∧ ∀ e ∈ res.2, e.isManagerCall = false := by
  unfold Layman.setWorkspaceLayout at h
  cases hl : lay.lookupState wsName with
  | none =>
    simp only [hl] at h
    exact absurd h except_throw_ne_ok
  | some st =>
    simp only [hl] at h
    obtain ⟨r, hr, h⟩ := except_bind_ok h
    obtain ⟨hrw, hre⟩ := resolveLayoutName_ok_spec st nmArg r hr
    have hp1 : ∀ m,
        ((lay.updateState wsName r.1).lookupState m).map (fun s => s.windowIds) =
        (lay.lookupState m).map (fun s => s.windowIds) :=
      lay.preserve_one wsName r.1 (by rw [hl, hrw]; rfl)
    by_cases hex : r.1.isExcluded = true
    · rw [if_pos hex] at h
      rw [← except_pure_ok h]
      refine ⟨hp1, ?_⟩
      intro e he
      simp only [List.mem_singleton] at he
      rw [he]; rfl
    · rw [if_neg hex] at h
      by_cases hnat : r.2 ∈ nativeLayoutNames
      · rw [if_pos hnat] at h
        have hp2 : ∀ m,
            (((lay.updateState wsName r.1).updateState wsName
              { r.1 with layoutManager := none }).lookupState m).map
                (fun s => s.windowIds) =
            (lay.lookupState m).map (fun s => s.windowIds) := by
          intro m
          rw [(lay.updateState wsName r.1).preserve_one wsName
            { r.1 with layoutManager := none } (by rw [hp1 wsName, hl, hrw]; rfl) m]
          exact hp1 m
        cases ws0 with
        | some wst =>
          obtain ⟨effs, hcmd, h⟩ := except_bind_ok h
          rw [← except_pure_ok h]
          refine ⟨hp2, ?_⟩
          intro e he
          rcases List.mem_append.mp he with he | he
          · exact setWorkspaceLayoutCommand_no_mgr _ wst effs hcmd e he
          · simp only [List.mem_singleton] at he
            rw [he]; rfl
        | none =>
          rw [← except_pure_ok h]
          refine ⟨hp2, ?_⟩
          intro e he
          simp only [List.mem_singleton] at he
          rw [he]; rfl
      · rw [if_neg hnat] at h
        cases hg : (lay.updateState wsName r.1).getLayoutByShortName r.2 with
        | none =>
          simp only [hg] at h
          exact absurd h except_throw_ne_ok
        | some cls =>
          simp only [hg] at h
          rw [← except_pure_ok h]
          refine ⟨?_, ?_⟩
          · intro m
            rw [(lay.updateState wsName r.1).preserve_one wsName
              { r.1 with layoutManager := some cls }
              (by rw [hp1 wsName, hl, hrw]; rfl) m]
            exact hp1 m
          · intro e he
            simp only [List.mem_cons, List.not_mem_nil, or_false] at he
            rcases he with he | he <;> (rw [he]; rfl)

lemma reloader_ok_spec (lay : Layman) (ws : Option WsTree)
    (wsName : Option String) (body : LMOutcome) (lay2 : Layman)
    (effs : List Effect)
    (h : layoutManagerReloader lay ws wsName body = .ok (lay2, effs)) :
    (∀ m, (lay2.lookupState m).map (fun s => s.windowIds) =
      (lay.lookupState m).map (fun s => s.windowIds))
    ∧ ∀ e ∈ effs, e.isManagerCall = true →
        e ∈ (match body with | .ok es => es | .raised es => es) := by
  unfold layoutManagerReloader at h
  obtain ⟨nm, hnm, h⟩ := except_bind_ok h
  by_cases hz : nm = ""
  · rw [if_pos hz] at h
    exact absurd h except_throw_ne_ok
  · rw [if_neg hz] at h
    cases body with
    | ok es =>
      have hres := except_pure_ok h
      rw [Prod.mk.injEq] at hres
      obtain ⟨h1, h2⟩ := hres
      subst h1
      subst h2
      exact ⟨fun m => rfl, fun e he _ => he⟩
    | raised es =>
      obtain ⟨res, hsw, h⟩ := except_bind_ok h
      obtain ⟨hpres, hnomgr⟩ := setWorkspaceLayout_ok_spec lay ws nm none res hsw
      have hres := except_pure_ok h
      rw [Prod.mk.injEq] at hres
      obtain ⟨h1, h2⟩ := hres
      refine ⟨?_, ?_⟩
      · intro m
        rw [← h1]
        exact hpres m
      · intro e he hmgr
        rw [← h2] at he
        rcases List.mem_append.mp he with he | he
        · rcases List.mem_append.mp he with he | he
          · exact he
          · simp only [List.mem_cons, List.not_mem_nil, or_false] at he
            rcases he with he | he | he <;>
              (rw [he] at hmgr; exact absurd hmgr (by simp [Effect.isManagerCall]))
        · exact absurd hmgr (by rw [hnomgr e he]; decide)

lemma lookupState_isSome_of_mem (lay : Layman) (nm : String) (st : WorkspaceState)
    (hmem : (nm, st) ∈ lay.workspaceStates) :
    (lay.lookupState nm).isSome = true := by
  unfold Layman.lookupState
  cases hf : lay.workspaceStates.find? (fun p => p.1 == nm) with
  | none =>
    have := List.find?_eq_none.mp hf (nm, st) hmem
    simp at this
  | some q => rfl

lemma Layman.handleWindowAdded_spec (lay : Layman) (mgrRaises : Bool)
    (ws : WsTree) (win : Con) (st : WorkspaceState) (res : Layman × List Effect)
    (hst : lay.lookupState ws.name = some st) (hex : st.isExcluded = false)
    (h : lay.handleWindowAdded mgrRaises ws win = .ok res) :
    (∀ m, (res.1.lookupState m).map (fun s => s.windowIds) =
      (lay.lookupState m).map (fun s => s.windowIds))
    ∧ ∀ e ∈ res.2, e.isManagerCall = true → e.observed = some st.windowIds := by
  unfold Layman.handleWindowAdded at h
  simp only [hst] at h
  rw [if_neg (by simp [hex])] at h
  cases hlm : st.layoutManager with
  | some nmL =>
    simp only [hlm] at h
    by_cases hr : mgrRaises = true
    · rw [if_pos hr] at h
      obtain ⟨hpres, hmem⟩ := reloader_ok_spec _ _ _ _ res.1 res.2 h
      refine ⟨hpres, ?_⟩
      intro e he hm
      have hin := hmem e he hm
      simp only [List.mem_cons, List.not_mem_nil, or_false] at hin
      rw [hin]
      rfl
    · rw [if_neg hr] at h
      obtain ⟨hpres, hmem⟩ := reloader_ok_spec _ _ _ _ res.1 res.2 h
      refine ⟨hpres, ?_⟩
      intro e he hm
      have hin := hmem e he hm
      simp only [List.mem_cons, List.not_mem_nil, or_false] at hin
      rw [hin]
      rfl
  | none =>
    simp only [hlm] at h
    obtain ⟨effs, hcmd, h2⟩ := except_bind_ok h
    have hr2 := except_pure_ok h2
    refine ⟨?_, ?_⟩
    · intro m
      rw [← hr2]
    · intro e he hm
      rw [← hr2] at he
      exact absurd hm
        (by rw [setWorkspaceLayoutCommand_no_mgr lay ws effs hcmd e he]; decide)

lemma Layman.handleWindowRemoved_spec (lay : Layman) (mgrRaises : Bool)
    (workspace : Option WsTree) (wsName : String) (st : WorkspaceState)
    (res : Layman × List Effect)
    (hst : lay.lookupState wsName = some st) (hex : st.isExcluded = false)
    (hn : wsName ≠ "")
    (h : lay.handleWindowRemoved mgrRaises workspace (some wsName) = .ok res) :
    (∀ m, (res.1.lookupState m).map (fun s => s.windowIds) =
      (lay.lookupState m).map (fun s => s.windowIds))
    ∧ ∀ e ∈ res.2, e.isManagerCall = true → e.observed = some st.windowIds := by
  have hres : resolveWsName workspace (some wsName) = .ok wsName := by
    unfold resolveWsName
    rw [if_neg (by simpa using hn)]
    rfl
  unfold Layman.handleWindowRemoved at h
  rw [hres, except_ok_bind] at h
  rw [if_neg hn] at h
  simp only [hst] at h
  rw [if_neg (by simp [hex])] at h
  cases hlm : st.layoutManager with
  | some nmL =>
    simp only [hlm] at h
    by_cases hr : mgrRaises = true
    · rw [if_pos hr] at h
      obtain ⟨hpres, hmem⟩ := reloader_ok_spec _ _ _ _ res.1 res.2 h
      refine ⟨hpres, ?_⟩
      intro e he hm
      have hin := hmem e he hm
      simp only [List.mem_cons, List.not_mem_nil, or_false] at hin
      rw [hin]
      rfl
    · rw [if_neg hr] at h
      obtain ⟨hpres, hmem⟩ := reloader_ok_spec _ _ _ _ res.1 res.2 h
      refine ⟨hpres, ?_⟩
      intro e he hm
      have hin := hmem e he hm
      simp only [List.mem_cons, List.not_mem_nil, or_false] at hin
      rw [hin]
      rfl
  | none =>
    simp only [hlm] at h
    cases workspace with
    | some ws =>
      obtain ⟨effs, hcmd, h2⟩ := except_bind_ok h
      have hr2 := except_pure_ok h2
      refine ⟨?_, ?_⟩
      · intro m
        rw [← hr2]
      · intro e he hm
        rw [← hr2] at he
        exact absurd hm
          (by rw [setWorkspaceLayoutCommand_no_mgr lay ws effs hcmd e he]; decide)
    | none =>
      have hr2 := except_pure_ok h
      refine ⟨?_, ?_⟩
      · intro m
        rw [← hr2]
      · intro e he hm
        rw [← hr2] at he
        simp at he

/-- C1 (amended): `windowIds` tracks every window reported added to the
workspace — floating windows included — with set-insertion on
`window::new` and erasure on `window::close`, and in both handlers the
update happens before any layout-manager delegation: every manager call
the handler emits observes exactly the already-updated id list. -/
theorem C1_windowIds_tracking_amended (lay : Layman) (mgrRaises : Bool) :
    (∀ ws win st res,
      lay.lookupState ws.name = some st → st.isExcluded = false →
      lay.windowCreated mgrRaises (some ws) (some win) = .ok res →
      (res.1.lookupState ws.name).map (fun s => s.windowIds) =
        some (if win.id ∈ st.windowIds then st.windowIds
          else st.windowIds ++ [win.id])
      ∧ ∀ e ∈ res.2, e.isManagerCall = true →
        e.observed = some (if win.id ∈ st.windowIds then st.windowIds
          else st.windowIds ++ [win.id]))
    ∧ (∀ tree wsArg cid nm st res,
      lay.workspaceStates.find? (fun p => cid ∈ p.2.windowIds) = some (nm, st) →
      st.isExcluded = false → nm ≠ "" →
      lay.windowClosed mgrRaises tree wsArg cid = .ok res →
      (res.1.lookupState nm).map (fun s => s.windowIds) =
        some (st.windowIds.erase cid)
      ∧ ∀ e ∈ res.2, e.isManagerCall = true →
        e.observed = some (st.windowIds.erase cid)) := by
  constructor
  · intro ws win st res hst hex h
    unfold Layman.windowCreated at h
    simp only [hst] at h
    obtain ⟨res2, hha, h2⟩ := except_bind_ok h
    have hr := except_pure_ok h2
    have hsome : (lay.lookupState ws.name).isSome = true := by rw [hst]; rfl
    have hlu := lay.lookupState_updateState_self ws.name
      { st with windowIds := if win.id ∈ st.windowIds then st.windowIds
          else st.windowIds ++ [win.id] } hsome
    obtain ⟨hpres, hobs⟩ :=
      Layman.handleWindowAdded_spec _ mgrRaises ws win _ res2 hlu hex hha
    constructor
    · rw [← hr]
      have hp := hpres ws.name
      rw [hlu] at hp
      exact hp
    · intro e he hm
      rw [← hr] at he
      rcases List.mem_cons.mp he with he | he
      · rw [he] at hm
        exact absurd hm (by decide)
      · exact hobs e he hm
  · intro tree wsArg cid nm st res hfind hex hn h
    unfold Layman.windowClosed at h
    simp only [hfind] at h
    have hmemws := List.mem_of_find?_eq_some hfind
    have hsome : (lay.lookupState nm).isSome = true :=
      lookupState_isSome_of_mem lay nm st hmemws
    by_cases hff :
        (st.fakeFullscreen && st.fakeFullscreenWindowId == some cid) = true
    · rw [if_pos hff] at h
      obtain ⟨res2, hhr, h2⟩ := except_bind_ok h
      have hr := except_pure_ok h2
      have hlu := lay.lookupState_updateState_self nm
        { st with
          windowIds := st.windowIds.erase cid,
          focusHistory := st.focusHistory.remove cid,
          fakeFullscreen := false,
          fakeFullscreenWindowId := none,
          savedStackLayout := none } hsome
      obtain ⟨hpres, hobs⟩ :=
        Layman.handleWindowRemoved_spec _ mgrRaises _ nm _ res2 hlu hex hn hhr
      constructor
      · rw [← hr]
        have hp := hpres nm
        rw [hlu] at hp
        exact hp
      · intro e he hm
        rw [← hr] at he
        rcases List.mem_cons.mp he with he | he
        · rw [he] at hm
          exact absurd hm (by decide)
        · exact hobs e he hm
    · rw [if_neg hff] at h
      obtain ⟨res2, hhr, h2⟩ := except_bind_ok h
      have hr := except_pure_ok h2
      have hlu := lay.lookupState_updateState_self nm
        { st with
          windowIds := st.windowIds.erase cid,
          focusHistory := st.focusHistory.remove cid } hsome
      obtain ⟨hpres, hobs⟩ :=
        Layman.handleWindowRemoved_spec _ mgrRaises _ nm _ res2 hlu hex hn hhr
      constructor
      · rw [← hr]
        have hp := hpres nm
        rw [hlu] at hp
        exact hp
      · intro e he hm
        rw [← hr] at he
        rcases List.mem_cons.mp he with he | he
        · rw [he] at hm
          exact absurd hm (by decide)
        · exact hobs e he hm

/-- Counterexample to C1 as stated: a floating window (window 7, user
floating on) created on workspace "1" is recorded in `windowIds` even
though the workspace's set of non-floating leaf ids is empty, so
`windowIds` does not equal that set and floating windows are members. -/
theorem C1_counterexample :
    ∃ res,
      layFresh.windowCreated false (some wsFloat) (some (floatCon 7 300)) =
        .ok res
      ∧ (res.1.lookupState wsFloat.name).map (fun s => s.windowIds) = some [7]
      ∧ wsFloat.nonFloatingLeafIds = []
      ∧ (floatCon 7 300).isFloating = true := by
  refine ⟨_, rfl, rfl, rfl, rfl⟩

/-- Witness for C1 (amended): creating tiling window 100 on fresh
workspace "1" yields `windowIds = [100]`, and closing window 100 on the
MasterStack workspace "3" yields `windowIds = [200]` with the
`windowRemoved` delegation observing `[200]`. -/
theorem C1_windowIds_tracking_amended_witness :
    ∃ resA resB,
      (layFresh.windowCreated false (some wsA) (some (tile 100 500)) =
          .ok resA
        ∧ (resA.1.lookupState wsA.name).map (fun s => s.windowIds) = some [100]
        ∧ ∀ e ∈ resA.2, e.isManagerCall = true → e.observed = some [100])
      ∧ (layMS.windowClosed false [] none 100 = .ok resB
        ∧ (resB.1.lookupState "3").map (fun s => s.windowIds) = some [200]
        ∧ ∀ e ∈ resB.2, e.isManagerCall = true → e.observed = some [200]) := by
  refine ⟨_, _, ⟨rfl, ?_, ?_⟩, ⟨rfl, ?_, ?_⟩⟩
  · have hp := ((C1_windowIds_tracking_amended layFresh false).1 wsA
      (tile 100 500) {} _ rfl rfl rfl).1
    exact hp
  · have hp := ((C1_windowIds_tracking_amended layFresh false).1 wsA
      (tile 100 500) {} _ rfl rfl rfl).2
    exact hp
  · have hp := ((C1_windowIds_tracking_amended layMS false).2 [] none 100 "3"
      { layoutManager := some "MasterStack", layoutName := "MasterStack",
        windowIds := [100, 200] } _ rfl rfl (by decide) rfl).1
    exact hp
  · have hp := ((C1_windowIds_tracking_amended layMS false).2 [] none 100 "3"
      { layoutManager := some "MasterStack", layoutName := "MasterStack",
        windowIds := [100, 200] } _ rfl rfl (by decide) rfl).2
    exact hp

end Layman
